import Mathlib

/-!
Verification of the `bitcoin-wallet` documentation build scripts.

This file gives a shallow embedding of the two Python scripts of the
repository:

* `TESTING_GUIDES/build-html-guide.py` — builds a single static HTML testing
  guide from a fixed registry of Markdown files (`GUIDES`), deriving a guide
  identifier from each registered relative path, embedding each readable
  file's escaped text into a JavaScript object literal, and emitting
  navigation links and one empty section per guide;
* `create-tester-package.py` — stages a pre-built extension directory plus
  the guide HTML, launcher scripts and documentation into a dated staging
  directory and compresses it into a zip archive.

Strings are modelled as `List Char` (Lean 4.14 `String` literals convert via
`String.data`).  Python's `str.replace` (replace every non-overlapping
occurrence, scanning left to right) is modelled by `replaceAll`, implemented
with an explicit fuel argument so that it reduces in the kernel; the fuel is
eliminated by `replaceAllFuel_agree` and the unfolding lemmas below.
Python's `str.lower` on the ASCII identifier strings is `Char.toLower`
mapped over the list.  The file system is a function from path to
`ReadResult`; `read_file` in the source catches exactly
`FileNotFoundError` (modelled by `ReadResult.notFound`), while any other
I/O error (`ReadResult.ioError`) propagates and aborts the run, which the
embedding represents with `Except`.
-/

/-- Python `str.replace(pat, rep)` with explicit fuel: scans the string left
to right, replacing every non-overlapping occurrence of `pat` by `rep`.
The fuel bounds the recursion depth; `replaceAll` instantiates it with the
length of the string, which is always sufficient. -/
def replaceAllFuel (pat rep : List Char) : Nat → List Char → List Char
  | _, [] => []
  | 0, s => s
  | fuel + 1, c :: cs =>
    if pat ≠ [] ∧ pat.isPrefixOf (c :: cs) then
      rep ++ replaceAllFuel pat rep fuel (List.drop (pat.length - 1) cs)
    else
      c :: replaceAllFuel pat rep fuel cs

/-- Python `s.replace(pat, rep)`: replace every non-overlapping occurrence
of `pat` in `s` by `rep`, scanning left to right. -/
def replaceAll (pat rep s : List Char) : List Char :=
  replaceAllFuel pat rep s.length s

/-- Python `s.lower()` restricted to the ASCII strings it is applied to. -/
def lowerAll (s : List Char) : List Char := s.map Char.toLower

/-- The three guide categories of the `GUIDES` dictionary, in declaration
order; `generate_markdown_data` and `generate_html` tag them `'core'`,
`'feature'` and `'workflow'` respectively. -/
inductive Category where
  | core
  | feature
  | workflow
deriving DecidableEq

/-- One entry of the guide registry: `{"file": ..., "title": ..., "icon": ...}`. -/
structure GuideEntry where
  file : String
  title : String
  icon : String
deriving DecidableEq

/-- The guide registry `GUIDES`, grouped in its three categories. -/
structure Guides where
  core : List GuideEntry
  feature_tests : List GuideEntry
  workflows : List GuideEntry

/-- The flattened `all_guides` list built identically in
`generate_markdown_data` and `generate_html`: core, feature tests, then
workflows, each tagged with its category. -/
def allGuides (g : Guides) : List (Category × GuideEntry) :=
  g.core.map (fun e => (Category.core, e))
    ++ g.feature_tests.map (fun e => (Category.feature, e))
    ++ g.workflows.map (fun e => (Category.workflow, e))

/-- The declared registry `GUIDES` of `build-html-guide.py`. -/
def GUIDES : Guides where
  core := [
    ⟨"README.md", "Overview", "📋"⟩,
    ⟨"MASTER_TESTING_GUIDE.md", "Master Testing Guide", "🎯"⟩,
    ⟨"TESTNET_SETUP_GUIDE.md", "Testnet Setup", "⚙️"⟩,
    ⟨"PRIORITY_TEST_EXECUTION_GUIDE.md", "Priority Tests (P0)", "🚀"⟩,
    ⟨"BUG_REPORTING_GUIDE.md", "Bug Reporting", "🐛"⟩,
    ⟨"TEST_RESULTS_TRACKER.md", "Results Tracker", "📊"⟩,
    ⟨"VISUAL_TESTING_REFERENCE.md", "Visual Testing", "🎨"⟩,
    ⟨"BITCOIN_SPECIFIC_TESTING.md", "Bitcoin Testing", "₿"⟩,
    ⟨"EXTENSION_INSTALLATION_GUIDE.md", "Extension Install", "📦"⟩,
    ⟨"DISTRIBUTION_GUIDE.md", "Distribution", "🌐"⟩]
  feature_tests := [
    ⟨"FEATURE_TESTS/01_TAB_ARCHITECTURE.md", "01. Tab Architecture", "🪟"⟩,
    ⟨"FEATURE_TESTS/02_WALLET_SETUP.md", "02. Wallet Setup", "💼"⟩,
    ⟨"FEATURE_TESTS/03_AUTHENTICATION.md", "03. Authentication", "🔐"⟩,
    ⟨"FEATURE_TESTS/04_ACCOUNT_MANAGEMENT.md", "04. Account Management", "👤"⟩,
    ⟨"FEATURE_TESTS/05_SEND_TRANSACTIONS.md", "05. Send Transactions", "📤"⟩,
    ⟨"FEATURE_TESTS/06_RECEIVE_TRANSACTIONS.md", "06. Receive Transactions", "📥"⟩,
    ⟨"FEATURE_TESTS/07_TRANSACTION_HISTORY.md", "07. Transaction History", "📜"⟩,
    ⟨"FEATURE_TESTS/08_MULTISIG_WALLETS.md", "08. Multisig Wallets", "🔑"⟩,
    ⟨"FEATURE_TESTS/09_SECURITY_FEATURES.md", "09. Security Features", "🛡️"⟩,
    ⟨"FEATURE_TESTS/10_SETTINGS_PREFERENCES.md", "10. Settings", "⚙️"⟩,
    ⟨"FEATURE_TESTS/10_CONTACT_MANAGEMENT.md", "10. Contact Management", "📇"⟩,
    ⟨"FEATURE_TESTS/11_ACCESSIBILITY_PERFORMANCE.md", "11. Accessibility", "♿"⟩,
    ⟨"FEATURE_TESTS/11_TRANSACTION_FILTERING.md", "11. Transaction Filtering", "🔍"⟩,
    ⟨"FEATURE_TESTS/12_TRANSACTION_METADATA.md", "12. Transaction Metadata", "🏷️"⟩,
    ⟨"FEATURE_TESTS/13_ENCRYPTED_BACKUP.md", "13. Encrypted Backup", "💾"⟩]
  workflows := [
    ⟨"PSBT_WORKFLOW_TESTING_GUIDE.md", "PSBT Workflow", "🔄"⟩]

/-- Identifier computed by the core-guides loop of `generate_nav_html`:
`guide['file'].replace('.md', '').replace('/', '-').lower()`. -/
def navIdCore (f : String) : List Char :=
  lowerAll (replaceAll "/".data "-".data (replaceAll ".md".data [] f.data))

/-- Identifier computed by the feature-tests loop of `generate_nav_html`:
`guide['file'].replace('.md', '').replace('FEATURE_TESTS/', 'feature-').replace('/', '-').lower()`. -/
def navIdFeature (f : String) : List Char :=
  lowerAll (replaceAll "/".data "-".data
    (replaceAll "FEATURE_TESTS/".data "feature-".data
      (replaceAll ".md".data [] f.data)))

/-- Identifier computed by the workflows loop of `generate_nav_html`:
`guide['file'].replace('../', '').replace('.md', '').replace('/', '-').lower()`. -/
def navIdWorkflow (f : String) : List Char :=
  lowerAll (replaceAll "/".data "-".data
    (replaceAll ".md".data [] (replaceAll "../".data [] f.data)))

/-- The identifier used for the navigation link of an entry, dispatching on
the loop of `generate_nav_html` that processes its category. -/
def navGuideId : Category → String → List Char
  | .core, f => navIdCore f
  | .feature, f => navIdFeature f
  | .workflow, f => navIdWorkflow f

/-- Identifier computed per entry in `generate_markdown_data`:
`guide['file'].replace('.md', '').replace('../', '').replace('./', '').replace('/', '-').lower()`,
followed by `.replace('feature_tests', 'feature')` when the category tag is
`'feature'`.  This identifier is the key of the entry in the embedded
`markdownContent` object literal. -/
def mdGuideId (cat : Category) (f : String) : List Char :=
  let gid := lowerAll (replaceAll "/".data "-".data
    (replaceAll "./".data []
      (replaceAll "../".data []
        (replaceAll ".md".data [] f.data))))
  match cat with
  | .feature => replaceAll "feature_tests".data "feature".data gid
  | _ => gid

/-- Identifier computed per entry in the section-emitting loop of
`generate_html`; the source duplicates the replacement chain of
`generate_markdown_data` verbatim (lines 595-597). -/
def sectionGuideId (cat : Category) (f : String) : List Char :=
  let gid := lowerAll (replaceAll "/".data "-".data
    (replaceAll "./".data []
      (replaceAll "../".data []
        (replaceAll ".md".data [] f.data))))
  match cat with
  | .feature => replaceAll "feature_tests".data "feature".data gid
  | _ => gid

/-- Modelled from the spec: the category-specific directory prefix that
rule (a) of the Identifier Normalizer contract says is stripped when
present.  The feature-tests category's directory is `FEATURE_TESTS/`; the
workflows loop's prefix replacement targets `../`; core entries carry no
directory prefix. -/
def specCategoryDir : Category → List Char
  | .core => []
  | .feature => "FEATURE_TESTS/".data
  | .workflow => "../".data

/-- Modelled from the spec (Identifier Normalizer, rules applied in order):
(a) strip a leading category-specific directory prefix if present; (b)
strip a trailing Markdown extension; (c) replace any path-separator
character with `-`; (d) lowercase all characters.  This is the second
definition of a refinement claim, written from the spec's words so it can
be compared with the identifier chains taken from the source. -/
def specNormalize (cat : Category) (f : String) : List Char :=
  let s0 := f.data
  let p := specCategoryDir cat
  let s1 := if p ≠ [] ∧ p.isPrefixOf s0 then s0.drop p.length else s0
  let e := ".md".data
  let s2 := if e.isSuffixOf s1 then s1.take (s1.length - e.length) else s1
  lowerAll (replaceAll "/".data "-".data s2)

/-- The amended normalization rule: as `specNormalize`, except that for the
feature-tests category the leading `FEATURE_TESTS/` directory prefix is
replaced by the category tag `feature-` instead of being stripped. -/
def amendedNormalize (cat : Category) (f : String) : List Char :=
  let s0 := f.data
  let s1 :=
    match cat with
    | .core => s0
    | .feature =>
      if ("FEATURE_TESTS/".data).isPrefixOf s0 then
        "feature-".data ++ s0.drop ("FEATURE_TESTS/".data).length
      else s0
    | .workflow =>
      if ("../".data).isPrefixOf s0 then s0.drop ("../".data).length else s0
  let e := ".md".data
  let s2 := if e.isSuffixOf s1 then s1.take (s1.length - e.length) else s1
  lowerAll (replaceAll "/".data "-".data s2)

/-- `escape_for_js`: `None` becomes the empty string; otherwise backslashes
are doubled first, then backticks and `$`-brace interpolation openers are
prefixed with a backslash. -/
def escape_for_js : Option (List Char) → List Char
  | none => []
  | some content =>
    replaceAll "$\x7b".data "\\$\x7b".data
      (replaceAll "`".data "\\`".data
        (replaceAll "\\".data "\\\\".data content))

/-- Undoing the escapes in the target JavaScript template-literal context:
scanning left to right, a backslash followed by a character yields that
character (the cooked value of the sequences `\\`, `` \` `` and `\$`,
which are the only backslash sequences `escape_for_js` emits). -/
def unescape : List Char → List Char
  | [] => []
  | c :: cs =>
    if c = '\\' then
      match cs with
      | [] => [c]
      | d :: rest => d :: unescape rest
    else c :: unescape cs

/-- Outcome of opening a registered file: the content on success, a
`FileNotFoundError` (the one exception `read_file` catches), or any other
I/O error, which `read_file` does not catch and which therefore aborts the
whole run. -/
inductive ReadResult where
  | found (content : List Char)
  | notFound
  | ioError
deriving DecidableEq

/-- The warning `read_file` prints when a registered file is missing:
`Warning: File not found: {filepath}`. -/
def warnMsg (p : String) : List Char :=
  "Warning: File not found: ".data ++ p.data

/-- The per-entry loop body of `generate_markdown_data` over the flattened
`all_guides` list: a missing file prints a warning and contributes
nothing; an uncaught I/O error aborts the run; read content is embedded
under the entry's identifier only when non-empty (`if content:` is false
for the empty string as well as for `None`).  Returns the key/value pairs
of the emitted `markdownContent` object literal, in emission order,
together with the warnings printed, in order.  The file system `fs` maps
each registered relative path (joined in the source with the fixed
`base_dir`) to its read outcome. -/
def generate_markdown_entries (fs : String → ReadResult) :
    List (Category × GuideEntry) →
      Except Unit (List (List Char × List Char) × List (List Char))
  | [] => .ok ([], [])
  | (cat, g) :: rest =>
    match fs g.file with
    | .ioError => .error ()
    | .notFound =>
      match generate_markdown_entries fs rest with
      | .error e => .error e
      | .ok (ps, ws) => .ok (ps, warnMsg g.file :: ws)
    | .found c =>
      match generate_markdown_entries fs rest with
      | .error e => .error e
      | .ok (ps, ws) =>
        .ok ((if c = [] then [] else
          [(mdGuideId cat g.file, escape_for_js (some c))]) ++ ps, ws)

/-- The pair contributed to the `markdownContent` object literal by one
entry, if any: used to characterise `generate_markdown_entries`. -/
def entryPair (fs : String → ReadResult) (ce : Category × GuideEntry) :
    Option (List Char × List Char) :=
  match fs ce.2.file with
  | .found c =>
    if c = [] then none
    else some (mdGuideId ce.1 ce.2.file, escape_for_js (some c))
  | _ => none

/-- The warning printed for one entry, if any: used to characterise
`generate_markdown_entries`. -/
def entryWarn (fs : String → ReadResult) (ce : Category × GuideEntry) :
    Option (List Char) :=
  if fs ce.2.file = .notFound then some (warnMsg ce.2.file) else none

/-- One JavaScript property line of the embedded `markdownContent` object:
`  "{guide_id}": `{escaped_content}`,`. -/
def mdLine (p : List Char × List Char) : List Char :=
  "  \"".data ++ p.1 ++ "\": `".data ++ p.2 ++ "`,\n".data

/-- The full text returned by `generate_markdown_data`: header, one
property line per emitted pair, footer. -/
def renderMarkdownData (pairs : List (List Char × List Char)) : List Char :=
  "const markdownContent = \x7b\n".data
    ++ (pairs.map mdLine).flatten ++ "\x7d;\n".data

/-- One navigation link line emitted by `generate_nav_html`:
`      <li><a href="#{guide_id}" class="nav-link" data-guide="{guide_id}">{icon} {title}</a></li>`.
The identifier is interpolated twice from the same variable: as the link's
fragment target and as its `data-guide` attribute. -/
def navLine (gid : List Char) (icon title : String) : List Char :=
  "      <li><a href=\"#".data ++ gid
    ++ "\" class=\"nav-link\" data-guide=\"".data ++ gid
    ++ "\">".data ++ icon.data ++ " ".data ++ title.data ++ "</a></li>\n".data

/-- The static sidebar text preceding the core-guides links. -/
def navHeader : List Char :=
  ("<nav id=\"sidebar\">\n  <div class=\"sidebar-header\">\n    <h2>₿ Bitcoin Wallet</h2>\n"
    ++ "    <p>Testing Guides</p>\n  </div>\n\n  <div class=\"search-box\">\n"
    ++ "    <input type=\"text\" id=\"search-input\" placeholder=\"Search guides...\" />\n  </div>\n\n"
    ++ "  <div class=\"nav-section\">\n    <h3>Core Guides</h3>\n    <ul>\n").data

/-- The static sidebar text between the core and feature-test links. -/
def navMidFeature : List Char :=
  ("    </ul>\n  </div>\n\n  <div class=\"nav-section\">\n    <h3>Feature Tests</h3>\n    <ul>\n").data

/-- The static sidebar text between the feature-test and workflow links. -/
def navMidWorkflow : List Char :=
  ("    </ul>\n  </div>\n\n  <div class=\"nav-section\">\n    <h3>Workflows</h3>\n    <ul>\n").data

/-- The static sidebar text closing the navigation tree. -/
def navFooter : List Char := "    </ul>\n  </div>\n</nav>\n".data

/-- `generate_nav_html`: the sidebar, with one link line per registry
entry, grouped by category in registry order. -/
def generate_nav_html (guides : Guides) : List Char :=
  navHeader
    ++ (guides.core.map (fun g => navLine (navIdCore g.file) g.icon g.title)).flatten
    ++ navMidFeature
    ++ (guides.feature_tests.map (fun g => navLine (navIdFeature g.file) g.icon g.title)).flatten
    ++ navMidWorkflow
    ++ (guides.workflows.map (fun g => navLine (navIdWorkflow g.file) g.icon g.title)).flatten
    ++ navFooter

/-- One empty content section emitted by `generate_html`:
`        <section id="{guide_id}" class="guide-section"><div class="markdown-body"></div></section>`. -/
def sectionLine (gid : List Char) : List Char :=
  "        <section id=\"".data ++ gid
    ++ "\" class=\"guide-section\"><div class=\"markdown-body\"></div></section>\n".data

/-- The empty content sections of `generate_html`, one per registry entry,
in `all_guides` order. -/
def sectionLines (guides : Guides) : List (List Char) :=
  (allGuides guides).map (fun ce => sectionLine (sectionGuideId ce.1 ce.2.file))

/-- The fixed document head and stylesheet of the emitted page
(abbreviated: the full inline CSS is static template text with no
interpolation and no bearing on the claims). -/
def htmlHead : List Char :=
  "<!DOCTYPE html>\n<html lang=\"en\">\n<head>...static stylesheet...</head>\n<body>\n".data

/-- The fixed welcome section shown by default (abbreviated static
template text, no interpolation). -/
def welcomeHtml : List Char :=
  "\n    <main id=\"content\">\n        <section id=\"welcome\" class=\"guide-section active\">...static welcome text...</section>\n".data

/-- The static text between the sections and the embedded content. -/
def scriptOpen : List Char := "    </main>\n\n    <script>\n".data

/-- The fixed client-side behaviour script and closing tags (abbreviated
static template text, no interpolation). -/
def scriptTail : List Char :=
  "\n        ...static client-side behaviour script...\n    </script>\n</body>\n</html>".data

/-- `generate_html`: the complete emitted page.  The `_now` parameter
models the ambient clock (the script imports `datetime` but never reads
it, so the result cannot depend on it); the `Except` propagates an
uncaught read error.  On success the result is the byte content written to
`testing-guide.html`. -/
def generate_html (fs : String → ReadResult) (guides : Guides)
    (_now : String) : Except Unit (List Char) :=
  match generate_markdown_entries fs (allGuides guides) with
  | .error e => .error e
  | .ok (pairs, _warns) =>
    .ok (htmlHead ++ generate_nav_html guides ++ welcomeHtml
      ++ (sectionLines guides).flatten ++ scriptOpen
      ++ renderMarkdownData pairs ++ scriptTail)

/-- The value a JavaScript property access on the evaluated
`markdownContent` object literal yields for key `k`: with duplicate keys,
the later binding wins. -/
def jsLookup (pairs : List (List Char × List Char)) (k : List Char) :
    Option (List Char) :=
  pairs.foldl (fun acc p => if p.1 = k then some p.2 else acc) none

/-- Insert-or-overwrite for association lists: the binding for `k` is
replaced in place if present, appended otherwise. -/
def upsert : List (List Char × List Char) → List Char → List Char →
    List (List Char × List Char)
  | [], k, v => [(k, v)]
  | (k', v') :: rest, k, v =>
    if k' = k then (k, v) :: rest else (k', v') :: upsert rest k v

/-- The evaluated JavaScript object denoted by the emitted property list:
properties are added in order, a duplicate key overwriting the earlier
binding in place, as JavaScript object literals do. -/
def jsObject (pairs : List (List Char × List Char)) :
    List (List Char × List Char) :=
  pairs.foldl (fun acc p => upsert acc p.1 p.2) []

/-- First-match lookup in an association list (well-defined lookup on
`jsObject`, whose keys are distinct). -/
def assocFind : List (List Char × List Char) → List Char → Option (List Char)
  | [], _ => none
  | (k', v) :: rest, k => if k' = k then some v else assocFind rest k

/-! ## The packaging script `create-tester-package.py`

The packaging run is modelled as a pure function of a `PkgWorld`
describing the relevant file-system state at invocation time, producing
the ordered trace of effects the script performs, its return value, and
the resulting state of the staging directory and of the day's zip
archive.  Relative paths are `String`s; the clock is the three formatted
date strings the script interpolates. -/

/-- File-system state seen by `create_tester_package` when it starts. -/
structure PkgWorld where
  /-- Relative paths of the files under `dist/`, or `none` when the
  directory does not exist. -/
  distFiles : Option (List String)
  /-- Whether `TESTING_GUIDES/testing-guide.html` exists. -/
  guideHtml : Bool
  /-- Whether `TESTING_GUIDES/open-guide.sh` exists. -/
  launcherSh : Bool
  /-- Whether `TESTING_GUIDES/open-guide.bat` exists. -/
  launcherBat : Bool
  /-- Which of the optional documentation source paths exist. -/
  docPresent : String → Bool
  /-- Whether a directory named like today's package already exists. -/
  preexistingPkgDir : Bool
  /-- Entries of a pre-existing zip archive of today's name, if any. -/
  oldZip : Option (List String)
  /-- `datetime.now().strftime('%Y%m%d')`. -/
  todayYmd : String
  /-- `datetime.now().strftime('%B %d, %Y')`. -/
  todayPretty : String
  /-- `datetime.now().strftime('%Y-%m-%d')`. -/
  todayIso : String

/-- `package_name = f'bitcoin-wallet-v0.12.0-testing-package-{timestamp}'`. -/
def packageName (todayYmd : String) : String :=
  "bitcoin-wallet-v0.12.0-testing-package-" ++ todayYmd

/-- The fixed list of optional documentation files: source path and
destination name inside the package. -/
def docsList : List (String × String) :=
  [("TESTING_GUIDES/QUICK_START.md", "QUICK_START.md"),
   ("TESTING_GUIDES/HTML_GUIDE_README.md", "HTML_GUIDE_README.md"),
   ("README.md", "PROJECT_README.md"),
   ("CHANGELOG.md", "CHANGELOG.md")]

/-- The generated `TESTER_README.md` (static template abbreviated; the
interpolated parts — package name and the two formatted dates — are kept). -/
def testerReadme (pkgName todayPretty todayIso : String) : String :=
  "# Bitcoin Wallet v0.12.0 - Testing Package\n\n**Package Date:** " ++ todayPretty
    ++ "\n...static tester instructions...\n" ++ pkgName
    ++ "/\n...\n- Package Date: " ++ todayIso ++ "\n"

/-- One observable effect of the packaging run, in program order. -/
inductive PkgEvent where
  /-- `shutil.rmtree(package_dir)` on the pre-existing staging directory. -/
  | rmtreePackageDir
  /-- `package_dir.mkdir()`. -/
  | mkdirPackageDir
  /-- The error report for a missing `dist/`, with its remediation hint
  (`Run 'npm run build' first to build the extension`). -/
  | printErrorDistMissing
  /-- `shutil.copytree(dist_dir, package_dir / 'extension')`. -/
  | copyExtension (files : List String)
  /-- `shutil.copy` of `testing-guide.html`. -/
  | copyGuideHtml
  /-- The warning printed when `testing-guide.html` is absent. -/
  | warnGuideHtmlMissing
  /-- `shutil.copy` of a launcher script. -/
  | copyLauncher (name : String)
  /-- `os.chmod(..., 0o755)` on the shell launcher. -/
  | chmodExecutable (name : String)
  /-- `shutil.copy` of one optional documentation file. -/
  | copyDoc (dest : String)
  /-- Writing the generated `TESTER_README.md`. -/
  | writeTesterReadme
  /-- Writing the fixed `.gitignore`. -/
  | writeGitignore
  /-- `os.remove(zip_path)` on a pre-existing archive of today's name. -/
  | removeOldZip
  /-- Writing the zip archive with exactly these entry names. -/
  | writeZip (entries : List String)
  /-- The final `shutil.rmtree(package_dir)` after compression. -/
  | rmtreeStagingDir
deriving DecidableEq

/-- The files staged into the package directory, in copy order: the
extension tree under `extension/`, the guide HTML if present, each present
launcher, each present documentation file under its destination name, the
generated README and the ignore file. -/
def stagingFiles (w : PkgWorld) : List String :=
  (w.distFiles.getD []).map (fun p => "extension/" ++ p)
    ++ (if w.guideHtml then ["testing-guide.html"] else [])
    ++ (if w.launcherSh then ["open-guide.sh"] else [])
    ++ (if w.launcherBat then ["open-guide.bat"] else [])
    ++ (docsList.filter (fun d => w.docPresent d.1)).map (fun d => d.2)
    ++ ["TESTER_README.md", ".gitignore"]

/-- Archive entry names: `os.walk` over the staging directory, each file's
`arcname` taken relative to the staging directory's parent, so every entry
is prefixed with the package folder name. -/
def zipEntries (w : PkgWorld) : List String :=
  (stagingFiles w).map (fun p => packageName w.todayYmd ++ "/" ++ p)

/-- Result of one packaging run. -/
structure PkgRun where
  /-- The effects performed, in program order. -/
  events : List PkgEvent
  /-- The script's return value: the zip path on success, `None` when it
  bails out on a missing `dist/`. -/
  result : Option String
  /-- Contents of the staging directory after the run (`none`: the
  directory does not exist). -/
  stagingAfter : Option (List String)
  /-- Entries of today's zip archive after the run (`none`: no such
  archive exists). -/
  zipAfter : Option (List String)

/-- The staging copy steps, in source order (steps 2-6 of the script). -/
def stagingEvents (w : PkgWorld) (files : List String) : List PkgEvent :=
  [.copyExtension files]
    ++ (if w.guideHtml then [.copyGuideHtml] else [.warnGuideHtmlMissing])
    ++ (if w.launcherSh then
          [.copyLauncher "open-guide.sh", .chmodExecutable "open-guide.sh"]
        else [])
    ++ (if w.launcherBat then [.copyLauncher "open-guide.bat"] else [])
    ++ (docsList.filter (fun d => w.docPresent d.1)).map
        (fun d => PkgEvent.copyDoc d.2)
    ++ [.writeTesterReadme, .writeGitignore]

/-- `create_tester_package`: deletes any same-named staging directory,
creates a fresh one, then checks `dist/`.  If `dist/` is missing it prints
the error and remediation hint and returns `None`, leaving the freshly
created empty staging directory and any pre-existing archive in place.
Otherwise it stages all files, removes a pre-existing archive of today's
name, compresses the staging tree and deletes it. -/
def create_tester_package (w : PkgWorld) : PkgRun :=
  let preClean : List PkgEvent :=
    if w.preexistingPkgDir then [.rmtreePackageDir] else []
  match w.distFiles with
  | none =>
    { events := preClean ++ [.mkdirPackageDir, .printErrorDistMissing]
      result := none
      stagingAfter := some []
      zipAfter := w.oldZip }
  | some files =>
    { events := preClean ++ [.mkdirPackageDir]
        ++ stagingEvents w files
        ++ (if w.oldZip.isSome then [.removeOldZip] else [])
        ++ [.writeZip (zipEntries w), .rmtreeStagingDir]
      result := some (packageName w.todayYmd ++ ".zip")
      stagingAfter := none
      zipAfter := some (zipEntries w) }

/-- Character-wise expansion: the effect of replacing each single
character by a block.  A single-character `replaceAll` is an `expand`
(`replaceAll_singleton` below), which gives the escape chain an induction-
friendly form. -/
def expand (f : Char → List Char) : List Char → List Char
  | [] => []
  | c :: cs => f c ++ expand f cs

/-- The combined effect of the first two replacements of `escape_for_js`
on one character: a backslash is doubled, a backtick gains a backslash,
anything else is untouched. -/
def escGuard (c : Char) : List Char :=
  if c = '\\' then ['\\', '\\']
  else if c = '`' then ['\\', '`']
  else [c]

/-! ## Lemmas: the fuelled replacement engine -/

theorem replaceAllFuel_nil (pat rep : List Char) (fuel : Nat) :
    replaceAllFuel pat rep fuel [] = [] := by
  cases fuel <;> rfl

theorem replaceAllFuel_agree (pat rep : List Char) :
    ∀ f g s, s.length ≤ f → s.length ≤ g →
      replaceAllFuel pat rep f s = replaceAllFuel pat rep g s := by
  intro f
  induction f with
  | zero =>
    intro g s hf _
    have hs : s = [] := List.eq_nil_of_length_eq_zero (Nat.le_zero.mp hf)
    subst hs
    simp [replaceAllFuel_nil]
  | succ f ih =>
    intro g s hf hg
    match s, g with
    | [], _ => simp [replaceAllFuel_nil]
    | c :: cs, g + 1 =>
      simp only [replaceAllFuel]
      have hcs : cs.length ≤ f := Nat.lt_succ_iff.mp hf
      have hcs' : cs.length ≤ g := Nat.lt_succ_iff.mp hg
      split
      · have hd : (List.drop (pat.length - 1) cs).length ≤ cs.length := by
          simp [List.length_drop]
        exact congrArg (rep ++ ·)
          (ih g _ (le_trans hd hcs) (le_trans hd hcs'))
      · exact congrArg (c :: ·) (ih g cs hcs hcs')

theorem replaceAll_nil (pat rep : List Char) : replaceAll pat rep [] = [] := rfl

theorem replaceAll_cons_pos (pat rep : List Char) (c : Char) (cs : List Char)
    (h1 : pat ≠ []) (h2 : pat.isPrefixOf (c :: cs)) :
    replaceAll pat rep (c :: cs) =
      rep ++ replaceAll pat rep (List.drop (pat.length - 1) cs) := by
  show replaceAllFuel pat rep (cs.length + 1) (c :: cs) = _
  rw [replaceAllFuel, if_pos ⟨h1, h2⟩]
  unfold replaceAll
  have hd : (List.drop (pat.length - 1) cs).length ≤ cs.length := by
    simp [List.length_drop]
  rw [replaceAllFuel_agree pat rep cs.length (List.drop (pat.length - 1) cs).length _ hd le_rfl]

theorem replaceAll_cons_neg (pat rep : List Char) (c : Char) (cs : List Char)
    (h : ¬(pat ≠ [] ∧ pat.isPrefixOf (c :: cs))) :
    replaceAll pat rep (c :: cs) = c :: replaceAll pat rep cs := by
  show replaceAllFuel pat rep (cs.length + 1) (c :: cs) = _
  rw [replaceAllFuel, if_neg h]
  rfl

theorem replaceAll_singleton (a : Char) (rep : List Char) :
    ∀ s, replaceAll [a] rep s =
      expand (fun c => if c = a then rep else [c]) s := by
  intro s
  induction s with
  | nil => rfl
  | cons c cs ih =>
    by_cases hc : c = a
    · subst hc
      rw [replaceAll_cons_pos [c] rep c cs (by simp) (by simp [List.isPrefixOf])]
      simp [expand, ih]
    · rw [replaceAll_cons_neg [a] rep c cs]
      · simp [expand, hc, ih]
      · simp [List.isPrefixOf]
        intro h
        exact absurd h.symm hc

theorem expand_append (f : Char → List Char) (s t : List Char) :
    expand f (s ++ t) = expand f s ++ expand f t := by
  induction s with
  | nil => rfl
  | cons c cs ih => simp [expand, ih]

/-! ## Lemmas: the escape chain and its inverse -/

theorem escGuard_expand_eq (s : List Char) :
    replaceAll ['`'] ['\\', '`'] (replaceAll ['\\'] ['\\', '\\'] s) =
      expand escGuard s := by
  rw [replaceAll_singleton, replaceAll_singleton]
  induction s with
  | nil => rfl
  | cons c cs ih =>
    rw [show expand (fun x => if x = '\\' then ['\\', '\\'] else [x]) (c :: cs)
        = (if c = '\\' then ['\\', '\\'] else [c])
          ++ expand (fun x => if x = '\\' then ['\\', '\\'] else [x]) cs from rfl,
      expand_append, ih,
      show expand escGuard (c :: cs) = escGuard c ++ expand escGuard cs from rfl]
    congr 1
    by_cases hb : c = '\\'
    · subst hb
      decide
    · by_cases ht : c = '`'
      · subst ht
        decide
      · simp [expand, escGuard, hb, ht]

theorem braceRepl_cons_other (c : Char) (w : List Char) (h : c ≠ '$') :
    replaceAll ['$', '\x7b'] ['\\', '$', '\x7b'] (c :: w) =
      c :: replaceAll ['$', '\x7b'] ['\\', '$', '\x7b'] w := by
  apply replaceAll_cons_neg
  rintro ⟨-, hpre⟩
  simp [List.isPrefixOf] at hpre
  exact h hpre.1.symm

theorem braceRepl_dollar_nil :
    replaceAll ['$', '\x7b'] ['\\', '$', '\x7b'] ['$'] = ['$'] := by
  rw [replaceAll_cons_neg]
  · rfl
  · rintro ⟨-, hpre⟩
    simp [List.isPrefixOf] at hpre

theorem braceRepl_dollar_cons (d : Char) (t : List Char) (h : d ≠ '\x7b') :
    replaceAll ['$', '\x7b'] ['\\', '$', '\x7b'] ('$' :: d :: t) =
      '$' :: replaceAll ['$', '\x7b'] ['\\', '$', '\x7b'] (d :: t) := by
  apply replaceAll_cons_neg
  rintro ⟨-, hpre⟩
  simp [List.isPrefixOf] at hpre
  exact h hpre.symm

theorem braceRepl_opener (w : List Char) :
    replaceAll ['$', '\x7b'] ['\\', '$', '\x7b'] ('$' :: '\x7b' :: w) =
      '\\' :: '$' :: '\x7b' :: replaceAll ['$', '\x7b'] ['\\', '$', '\x7b'] w := by
  have h := replaceAll_cons_pos ['$', '\x7b'] ['\\', '$', '\x7b'] '$'
    ('\x7b' :: w) (by simp) (by simp [List.isPrefixOf])
  simpa using h

theorem unescape_backslash (c : Char) (w : List Char) :
    unescape ('\\' :: c :: w) = c :: unescape w := by
  simp [unescape]

theorem unescape_other (c : Char) (w : List Char) (h : c ≠ '\\') :
    unescape (c :: w) = c :: unescape w := by
  unfold unescape
  rw [if_neg h, ← unescape.eq_def]

theorem unescape_braceRepl_expand :
    ∀ n (s : List Char), s.length ≤ n →
      unescape (replaceAll ['$', '\x7b'] ['\\', '$', '\x7b']
        (expand escGuard s)) = s := by
  intro n
  induction n with
  | zero =>
    intro s hs
    have : s = [] := List.eq_nil_of_length_eq_zero (Nat.le_zero.mp hs)
    subst this
    simp [expand, replaceAll_nil, unescape]
  | succ n ih =>
    intro s hs
    match s with
    | [] => simp [expand, replaceAll_nil, unescape]
    | c :: rest =>
      by_cases hb : c = '\\'
      · subst hb
        have hg : expand escGuard ('\\' :: rest) =
            '\\' :: ('\\' :: expand escGuard rest) := by
          simp [expand, escGuard]
        rw [hg, braceRepl_cons_other _ _ (by decide),
          braceRepl_cons_other _ _ (by decide),
          unescape_backslash]
        exact congrArg ('\\' :: ·) (ih rest (Nat.lt_succ_iff.mp hs))
      · by_cases ht : c = '`'
        · subst ht
          have hg : expand escGuard ('`' :: rest) =
              '\\' :: ('`' :: expand escGuard rest) := by
            simp [expand, escGuard]
          rw [hg, braceRepl_cons_other _ _ (by decide),
            braceRepl_cons_other _ _ (by decide),
            unescape_backslash]
          exact congrArg ('`' :: ·) (ih rest (Nat.lt_succ_iff.mp hs))
        · by_cases hd : c = '$'
          · subst hd
            match rest with
            | [] =>
              have hg : expand escGuard ['$'] = ['$'] := by
                simp [expand, escGuard]
              rw [hg, braceRepl_dollar_nil, unescape_other _ _ (by decide),
                unescape]
            | d :: rest' =>
              by_cases hlb : d = '\x7b'
              · subst hlb
                have hg : expand escGuard ('$' :: '\x7b' :: rest') =
                    '$' :: '\x7b' :: expand escGuard rest' := by
                  simp [expand, escGuard]
                rw [hg, braceRepl_opener, unescape_backslash,
                  unescape_other _ _ (by decide)]
                have hr : rest'.length ≤ n := by
                  simp only [List.length_cons] at hs
                  omega
                exact congrArg (fun t => '$' :: '\x7b' :: t) (ih rest' hr)
              · have hhead : ∃ h' t', expand escGuard (d :: rest') = h' :: t' ∧
                    h' ≠ '\x7b' := by
                  by_cases hb' : d = '\\'
                  · subst hb'
                    exact ⟨'\\', '\\' :: expand escGuard rest',
                      by simp [expand, escGuard], by decide⟩
                  · by_cases ht' : d = '`'
                    · subst ht'
                      exact ⟨'\\', '`' :: expand escGuard rest',
                        by simp [expand, escGuard], by decide⟩
                    · exact ⟨d, expand escGuard rest',
                        by simp [expand, escGuard, hb', ht'], hlb⟩
                obtain ⟨h', t', hexp, hne⟩ := hhead
                have hg : expand escGuard ('$' :: d :: rest') =
                    '$' :: expand escGuard (d :: rest') := by
                  simp [expand, escGuard]
                rw [hg, hexp, braceRepl_dollar_cons _ _ hne, ← hexp,
                  unescape_other _ _ (by decide)]
                have hr : (d :: rest').length ≤ n := by
                  simp only [List.length_cons] at hs ⊢
                  omega
                exact congrArg ('$' :: ·) (ih (d :: rest') hr)
          · have hg : expand escGuard (c :: rest) = c :: expand escGuard rest := by
              simp [expand, escGuard, hb, ht]
            rw [hg, braceRepl_cons_other _ _ hd, unescape_other _ _ hb]
            exact congrArg (c :: ·) (ih rest (Nat.lt_succ_iff.mp hs))

/-! ## Lemmas: the content assembler -/

theorem generate_markdown_entries_ok_char (fs : String → ReadResult) :
    ∀ l pairs warns,
      generate_markdown_entries fs l = .ok (pairs, warns) →
      pairs = l.filterMap (entryPair fs) ∧ warns = l.filterMap (entryWarn fs) := by
  intro l
  induction l with
  | nil =>
    intro pairs warns h
    simp [generate_markdown_entries] at h
    simp [h.1, h.2]
  | cons ce rest ih =>
    obtain ⟨cat, g⟩ := ce
    intro pairs warns h
    rw [generate_markdown_entries] at h
    cases hfs : fs g.file with
    | ioError => rw [hfs] at h; exact absurd h (by simp)
    | notFound =>
      rw [hfs] at h
      cases hrec : generate_markdown_entries fs rest with
      | error e => rw [hrec] at h; exact absurd h (by simp)
      | ok pr =>
        obtain ⟨ps, ws⟩ := pr
        rw [hrec] at h
        simp only [Except.ok.injEq, Prod.mk.injEq] at h
        obtain ⟨hp, hw⟩ := h
        obtain ⟨ihp, ihw⟩ := ih ps ws hrec
        subst hp hw
        constructor
        · simp [List.filterMap_cons, entryPair, hfs, ihp]
        · simp [List.filterMap_cons, entryWarn, hfs, ihw]
    | found c =>
      rw [hfs] at h
      cases hrec : generate_markdown_entries fs rest with
      | error e => rw [hrec] at h; exact absurd h (by simp)
      | ok pr =>
        obtain ⟨ps, ws⟩ := pr
        rw [hrec] at h
        simp only [Except.ok.injEq, Prod.mk.injEq] at h
        obtain ⟨hp, hw⟩ := h
        obtain ⟨ihp, ihw⟩ := ih ps ws hrec
        subst hp hw
        constructor
        · by_cases hc : c = []
          · simp [List.filterMap_cons, entryPair, hfs, hc, ihp]
          · simp [List.filterMap_cons, entryPair, hfs, hc, ihp]
        · simp [List.filterMap_cons, entryWarn, hfs, ihw]

theorem generate_markdown_entries_isOk (fs : String → ReadResult) :
    ∀ l, (∀ ce ∈ l, fs ce.2.file ≠ .ioError) →
      ∃ pairs warns, generate_markdown_entries fs l = .ok (pairs, warns) := by
  intro l
  induction l with
  | nil => exact fun _ => ⟨[], [], rfl⟩
  | cons ce rest ih =>
    obtain ⟨cat, g⟩ := ce
    intro h
    have hrest := ih (fun ce hce => h ce (List.mem_cons_of_mem _ hce))
    obtain ⟨ps, ws, hrec⟩ := hrest
    cases hfs : fs g.file with
    | ioError => exact absurd hfs (h (cat, g) (List.mem_cons_self _ _))
    | notFound =>
      exact ⟨ps, warnMsg g.file :: ws,
        by rw [generate_markdown_entries, hfs, hrec]⟩
    | found c =>
      exact ⟨(if c = [] then [] else
          [(mdGuideId cat g.file, escape_for_js (some c))]) ++ ps, ws,
        by rw [generate_markdown_entries, hfs, hrec]⟩

theorem generate_markdown_entries_err (fs : String → ReadResult) :
    ∀ l, (∃ ce ∈ l, fs ce.2.file = .ioError) →
      generate_markdown_entries fs l = .error () := by
  intro l
  induction l with
  | nil => rintro ⟨ce, hce, -⟩; exact absurd hce (List.not_mem_nil ce)
  | cons ce rest ih =>
    obtain ⟨cat, g⟩ := ce
    rintro ⟨ce', hce', hio⟩
    rcases List.mem_cons.mp hce' with hhd | htl
    · subst hhd
      rw [generate_markdown_entries, hio]
    · have hrec := ih ⟨ce', htl, hio⟩
      rw [generate_markdown_entries, hrec]
      cases hfs : fs g.file <;> rfl

/-! ## Lemmas: evaluated object-literal semantics -/

theorem jsLookup_foldl_init (k : List Char) :
    ∀ (l : List (List Char × List Char)) (init : Option (List Char)),
      l.foldl (fun acc p => if p.1 = k then some p.2 else acc) init =
        match jsLookup l k with
        | some v => some v
        | none => init := by
  intro l
  induction l with
  | nil => intro init; simp [jsLookup]
  | cons p ps ih =>
    intro init
    have hcons : jsLookup (p :: ps) k =
        match jsLookup ps k with
        | some v => some v
        | none => if p.1 = k then some p.2 else none := by
      show List.foldl _ (if p.1 = k then some p.2 else none) ps = _
      rw [ih]
    rw [List.foldl_cons, ih, hcons]
    cases hps : jsLookup ps k with
    | some v => simp
    | none => by_cases hp : p.1 = k <;> simp [hp]

theorem jsLookup_cons (p : List Char × List Char)
    (ps : List (List Char × List Char)) (k : List Char) :
    jsLookup (p :: ps) k =
      match jsLookup ps k with
      | some v => some v
      | none => if p.1 = k then some p.2 else none := by
  show List.foldl _ (if p.1 = k then some p.2 else none) ps = _
  rw [jsLookup_foldl_init]

theorem jsLookup_append (a b : List (List Char × List Char)) (k : List Char) :
    jsLookup (a ++ b) k =
      match jsLookup b k with
      | some v => some v
      | none => jsLookup a k := by
  show List.foldl _ none (a ++ b) = _
  rw [List.foldl_append, jsLookup_foldl_init]
  rfl

theorem jsLookup_eq_none (l : List (List Char × List Char)) (k : List Char)
    (h : ∀ p ∈ l, p.1 ≠ k) : jsLookup l k = none := by
  induction l with
  | nil => rfl
  | cons p ps ih =>
    rw [jsLookup_cons, ih (fun q hq => h q (List.mem_cons_of_mem _ hq))]
    simp [h p (List.mem_cons_self _ _)]

theorem mem_keys_upsert (l : List (List Char × List Char)) (k v a : List Char) :
    a ∈ (upsert l k v).map Prod.fst ↔ a = k ∨ a ∈ l.map Prod.fst := by
  induction l with
  | nil => simp [upsert]
  | cons p ps ih =>
    obtain ⟨k', v'⟩ := p
    by_cases h : k' = k
    · rw [upsert, if_pos h]
      subst h
      simp only [List.map_cons, List.mem_cons]
      tauto
    · rw [upsert, if_neg h]
      simp only [List.map_cons, List.mem_cons, ih]
      tauto

theorem nodup_keys_upsert (l : List (List Char × List Char)) (k v : List Char)
    (h : (l.map Prod.fst).Nodup) : ((upsert l k v).map Prod.fst).Nodup := by
  induction l with
  | nil => simp [upsert]
  | cons p ps ih =>
    obtain ⟨k', v'⟩ := p
    simp only [List.map_cons, List.nodup_cons] at h
    by_cases hk : k' = k
    · rw [upsert, if_pos hk]
      simp only [List.map_cons, List.nodup_cons]
      exact ⟨hk ▸ h.1, h.2⟩
    · rw [upsert, if_neg hk]
      simp only [List.map_cons, List.nodup_cons]
      refine ⟨?_, ih h.2⟩
      intro hmem
      rcases (mem_keys_upsert ps k v k').mp hmem with h1 | h2
      · exact hk h1
      · exact h.1 h2

theorem mem_keys_jsObject_foldl (k : List Char) :
    ∀ (pairs acc : List (List Char × List Char)),
      (k ∈ ((pairs.foldl (fun a p => upsert a p.1 p.2) acc).map Prod.fst)) ↔
        k ∈ acc.map Prod.fst ∨ k ∈ pairs.map Prod.fst := by
  intro pairs
  induction pairs with
  | nil => simp
  | cons p ps ih =>
    intro acc
    rw [List.foldl_cons, ih, mem_keys_upsert]
    simp only [List.map_cons, List.mem_cons]
    tauto

theorem nodup_keys_jsObject_foldl :
    ∀ (pairs acc : List (List Char × List Char)),
      (acc.map Prod.fst).Nodup →
      ((pairs.foldl (fun a p => upsert a p.1 p.2) acc).map Prod.fst).Nodup := by
  intro pairs
  induction pairs with
  | nil => exact fun acc h => h
  | cons p ps ih =>
    intro acc h
    rw [List.foldl_cons]
    exact ih _ (nodup_keys_upsert acc p.1 p.2 h)

theorem mem_keys_jsObject (pairs : List (List Char × List Char)) (k : List Char) :
    k ∈ (jsObject pairs).map Prod.fst ↔ k ∈ pairs.map Prod.fst := by
  show k ∈ ((pairs.foldl _ []).map Prod.fst) ↔ _
  rw [mem_keys_jsObject_foldl]
  simp

theorem nodup_keys_jsObject (pairs : List (List Char × List Char)) :
    ((jsObject pairs).map Prod.fst).Nodup :=
  nodup_keys_jsObject_foldl pairs [] (by simp)

theorem assocFind_upsert (l : List (List Char × List Char)) (k v k' : List Char) :
    assocFind (upsert l k v) k' = if k' = k then some v else assocFind l k' := by
  induction l with
  | nil =>
    rw [upsert]
    show (if k = k' then some v else assocFind [] k') = _
    by_cases h : k = k'
    · rw [if_pos h, if_pos h.symm]
    · rw [if_neg h, if_neg (fun hh => h hh.symm)]
  | cons p ps ih =>
    obtain ⟨k0, v0⟩ := p
    by_cases h0 : k0 = k
    · rw [upsert, if_pos h0]
      show (if k = k' then some v else assocFind ps k') =
        if k' = k then some v
        else if k0 = k' then some v0 else assocFind ps k'
      subst h0
      by_cases h : k0 = k'
      · rw [if_pos h, if_pos h.symm]
      · rw [if_neg h, if_neg (fun hh => h hh.symm), if_neg h]
    · rw [upsert, if_neg h0]
      show (if k0 = k' then some v0 else assocFind (upsert ps k v) k') =
        if k' = k then some v
        else if k0 = k' then some v0 else assocFind ps k'
      rw [ih]
      by_cases h1 : k0 = k'
      · by_cases h2 : k' = k
        · exact absurd (h1.trans h2) h0
        · rw [if_pos h1, if_neg h2, if_pos h1]
      · by_cases h2 : k' = k
        · rw [if_neg h1, if_pos h2, if_pos h2]
        · rw [if_neg h1, if_neg h2, if_neg h2, if_neg h1]

theorem assocFind_jsObject_foldl (k : List Char) :
    ∀ (pairs acc : List (List Char × List Char)),
      assocFind (pairs.foldl (fun a p => upsert a p.1 p.2) acc) k =
        match jsLookup pairs k with
        | some v => some v
        | none => assocFind acc k := by
  intro pairs
  induction pairs with
  | nil => intro acc; simp [jsLookup]
  | cons p ps ih =>
    intro acc
    rw [List.foldl_cons, ih, jsLookup_cons, assocFind_upsert]
    cases hps : jsLookup ps k with
    | some v => rfl
    | none =>
      by_cases hp : p.1 = k
      · simp [hp]
      · simp [hp, Ne.symm hp]

theorem assocFind_jsObject (pairs : List (List Char × List Char)) (k : List Char) :
    assocFind (jsObject pairs) k = jsLookup pairs k := by
  show assocFind (pairs.foldl _ []) k = _
  rw [assocFind_jsObject_foldl]
  cases jsLookup pairs k <;> simp [assocFind]

theorem jsLookup_filterMap_eq {α : Type} (F G : α → Option (List Char × List Char))
    (k : List Char) :
    ∀ (l : List α),
      (∀ x ∈ l, F x = G x ∨
        ((∀ (p : List Char × List Char), F x = some p → p.1 ≠ k) ∧
         (∀ (p : List Char × List Char), G x = some p → p.1 ≠ k))) →
      jsLookup (l.filterMap F) k = jsLookup (l.filterMap G) k := by
  have main : ∀ (l : List α) (init : Option (List Char)),
      (∀ x ∈ l, F x = G x ∨
        ((∀ (p : List Char × List Char), F x = some p → p.1 ≠ k) ∧
         (∀ (p : List Char × List Char), G x = some p → p.1 ≠ k))) →
      (l.filterMap F).foldl (fun acc p => if p.1 = k then some p.2 else acc) init =
      (l.filterMap G).foldl (fun acc p => if p.1 = k then some p.2 else acc) init := by
    intro l
    induction l with
    | nil => intro init _; rfl
    | cons x xs ih =>
      intro init h
      have hx := h x (List.mem_cons_self _ _)
      have hxs := fun y hy => h y (List.mem_cons_of_mem _ hy)
      rcases hx with heq | ⟨hF, hG⟩
      · rw [List.filterMap_cons, List.filterMap_cons, heq]
        cases G x with
        | none => exact ih init hxs
        | some p => rw [List.foldl_cons, List.foldl_cons]; exact ih _ hxs
      · rw [List.filterMap_cons, List.filterMap_cons]
        cases hFx : F x with
        | none =>
          cases hGx : G x with
          | none => exact ih init hxs
          | some p =>
            simp only [List.foldl_cons]
            rw [if_neg (hG p hGx)]
            exact ih init hxs
        | some p =>
          cases hGx : G x with
          | none =>
            simp only [List.foldl_cons]
            rw [if_neg (hF p hFx)]
            exact ih init hxs
          | some q =>
            simp only [List.foldl_cons]
            rw [if_neg (hF p hFx), if_neg (hG q hGx)]
            exact ih init hxs
  intro l h
  exact main l none h

/-! ## Lemmas: infixes of the emitted page, and entry characterisations -/

theorem isInfix_cat_left {α : Type} {a m : List α} (l : List α)
    (h : a <:+: m) : a <:+: l ++ m := by
  obtain ⟨s, t, hst⟩ := h
  exact ⟨l ++ s, t, by rw [← hst]; simp [List.append_assoc]⟩

theorem isInfix_cat_right {α : Type} {a m : List α} (r : List α)
    (h : a <:+: m) : a <:+: m ++ r := by
  obtain ⟨s, t, hst⟩ := h
  exact ⟨s, t ++ r, by rw [← hst]; simp [List.append_assoc]⟩

theorem mem_allGuides_cases (g : Guides) (cat : Category) (e : GuideEntry)
    (hmem : (cat, e) ∈ allGuides g) :
    (cat = .core ∧ e ∈ g.core) ∨ (cat = .feature ∧ e ∈ g.feature_tests) ∨
      (cat = .workflow ∧ e ∈ g.workflows) := by
  rw [allGuides] at hmem
  rcases List.mem_append.mp hmem with h12 | h3
  · rcases List.mem_append.mp h12 with h1 | h2
    · obtain ⟨x, hx, hxe⟩ := List.mem_map.mp h1
      obtain ⟨hcat, hxeq⟩ := Prod.mk.injEq .. ▸ hxe
      exact Or.inl ⟨hcat.symm, hxeq ▸ hx⟩
    · obtain ⟨x, hx, hxe⟩ := List.mem_map.mp h2
      obtain ⟨hcat, hxeq⟩ := Prod.mk.injEq .. ▸ hxe
      exact Or.inr (Or.inl ⟨hcat.symm, hxeq ▸ hx⟩)
  · obtain ⟨x, hx, hxe⟩ := List.mem_map.mp h3
    obtain ⟨hcat, hxeq⟩ := Prod.mk.injEq .. ▸ hxe
    exact Or.inr (Or.inr ⟨hcat.symm, hxeq ▸ hx⟩)

theorem navLine_infix_nav (guides : Guides) (cat : Category) (e : GuideEntry)
    (hmem : (cat, e) ∈ allGuides guides) :
    navLine (navGuideId cat e.file) e.icon e.title <:+: generate_nav_html guides := by
  rcases mem_allGuides_cases guides cat e hmem with ⟨hc, he⟩ | ⟨hc, he⟩ | ⟨hc, he⟩
  all_goals subst hc
  · have hf : navLine (navGuideId .core e.file) e.icon e.title <:+:
        (guides.core.map (fun g => navLine (navIdCore g.file) g.icon g.title)).flatten :=
      List.infix_of_mem_flatten (List.mem_map_of_mem _ he)
    rw [generate_nav_html]
    exact isInfix_cat_right _ (isInfix_cat_right _ (isInfix_cat_right _
      (isInfix_cat_right _ (isInfix_cat_right _ (isInfix_cat_left _ hf)))))
  · have hf : navLine (navGuideId .feature e.file) e.icon e.title <:+:
        (guides.feature_tests.map
          (fun g => navLine (navIdFeature g.file) g.icon g.title)).flatten :=
      List.infix_of_mem_flatten (List.mem_map_of_mem _ he)
    rw [generate_nav_html]
    exact isInfix_cat_right _ (isInfix_cat_right _ (isInfix_cat_right _
      (isInfix_cat_left _ hf)))
  · have hf : navLine (navGuideId .workflow e.file) e.icon e.title <:+:
        (guides.workflows.map
          (fun g => navLine (navIdWorkflow g.file) g.icon g.title)).flatten :=
      List.infix_of_mem_flatten (List.mem_map_of_mem _ he)
    rw [generate_nav_html]
    exact isInfix_cat_right _ (isInfix_cat_left _ hf)

theorem entryPair_eq_some (fs : String → ReadResult) (ce : Category × GuideEntry)
    (p : List Char × List Char) (h : entryPair fs ce = some p) :
    p.1 = mdGuideId ce.1 ce.2.file ∧
      ∃ c, fs ce.2.file = .found c ∧ c ≠ [] ∧ p.2 = escape_for_js (some c) := by
  unfold entryPair at h
  cases hfs : fs ce.2.file with
  | found c =>
    rw [hfs] at h
    by_cases hc : c = []
    · simp [hc] at h
    · simp only [hc, if_false] at h
      obtain rfl := Option.some.injEq .. ▸ h
      exact ⟨rfl, c, rfl, hc, rfl⟩
  | notFound => rw [hfs] at h; simp at h
  | ioError => rw [hfs] at h; simp at h

theorem entryWarn_eq_some (fs : String → ReadResult) (ce : Category × GuideEntry)
    (w : List Char) (h : entryWarn fs ce = some w) :
    w = warnMsg ce.2.file ∧ fs ce.2.file = .notFound := by
  unfold entryWarn at h
  by_cases hfs : fs ce.2.file = .notFound
  · rw [if_pos hfs] at h
    exact ⟨(Option.some.injEq .. ▸ h).symm, hfs⟩
  · rw [if_neg hfs] at h
    simp at h

theorem warnMsg_inj (p q : String) (h : warnMsg p = warnMsg q) : p = q := by
  unfold warnMsg at h
  exact String.ext (List.append_cancel_left h)

theorem generate_markdown_entries_ok_no_ioError (fs : String → ReadResult)
    (l : List (Category × GuideEntry))
    (pairs : List (List Char × List Char)) (warns : List (List Char))
    (hok : generate_markdown_entries fs l = .ok (pairs, warns)) :
    ∀ ce ∈ l, fs ce.2.file ≠ .ioError := by
  intro ce hce hio
  have herr := generate_markdown_entries_err fs l ⟨ce, hce, hio⟩
  rw [herr] at hok
  exact absurd hok (by simp)

theorem generate_markdown_entries_fst_congr (fs fs' : String → ReadResult)
    (l : List (Category × GuideEntry))
    (h : ∀ ce ∈ l, entryPair fs ce = entryPair fs' ce ∧
      (fs ce.2.file = .ioError ↔ fs' ce.2.file = .ioError)) :
    Except.map Prod.fst (generate_markdown_entries fs l) =
      Except.map Prod.fst (generate_markdown_entries fs' l) := by
  by_cases herr : ∃ ce ∈ l, fs ce.2.file = .ioError
  · obtain ⟨ce, hce, hio⟩ := herr
    have herr' : ∃ ce ∈ l, fs' ce.2.file = .ioError :=
      ⟨ce, hce, ((h ce hce).2).mp hio⟩
    rw [generate_markdown_entries_err fs l ⟨ce, hce, hio⟩,
      generate_markdown_entries_err fs' l herr']
  · push_neg at herr
    have herr2 : ∀ ce ∈ l, fs' ce.2.file ≠ .ioError :=
      fun ce hce hio' => herr ce hce (((h ce hce).2).mpr hio')
    obtain ⟨ps, ws, hok⟩ := generate_markdown_entries_isOk fs l herr
    obtain ⟨ps', ws', hok'⟩ := generate_markdown_entries_isOk fs' l herr2
    rw [hok, hok']
    have h1 := (generate_markdown_entries_ok_char fs l ps ws hok).1
    have h2 := (generate_markdown_entries_ok_char fs' l ps' ws' hok').1
    simp only [Except.map]
    rw [h1, h2, List.filterMap_congr (fun x hx => (h x hx).1)]

theorem generate_markdown_entries_congr (fs fs' : String → ReadResult) :
    ∀ l, (∀ ce ∈ l, fs ce.2.file = fs' ce.2.file) →
      generate_markdown_entries fs l = generate_markdown_entries fs' l := by
  intro l
  induction l with
  | nil => intro _; rfl
  | cons ce rest ih =>
    obtain ⟨cat, g⟩ := ce
    intro h
    rw [generate_markdown_entries, generate_markdown_entries,
      h (cat, g) (List.mem_cons_self _ _),
      ih (fun ce hce => h ce (List.mem_cons_of_mem _ hce))]

/-! ## The claims -/

/-- C5: round-trip — for every input text, including texts containing
backslashes, backtick delimiters and `$`-brace interpolation openers,
applying `escape_for_js` and then undoing those escapes in the target
JavaScript template-literal context yields the original text exactly. -/
theorem c5_escape_roundtrip (s : List Char) :
    unescape (escape_for_js (some s)) = s := by
  show unescape (replaceAll "$\x7b".data "\\$\x7b".data
    (replaceAll "`".data "\\`".data
      (replaceAll "\\".data "\\\\".data s))) = s
  rw [show ("$\x7b".data : List Char) = ['$', '\x7b'] from rfl,
    show ("\\$\x7b".data : List Char) = ['\\', '$', '\x7b'] from rfl,
    show ("`".data : List Char) = ['`'] from rfl,
    show ("\\`".data : List Char) = ['\\', '`'] from rfl,
    show ("\\".data : List Char) = ['\\'] from rfl,
    show ("\\\\".data : List Char) = ['\\', '\\'] from rfl,
    escGuard_expand_eq]
  exact unescape_braceRepl_expand s.length s le_rfl

/-- C1: for every entry of the declared registry `GUIDES`, the identifier
computed by the navigation loop, the identifier of the entry's empty
content section, and (when the entry's file is readable and non-empty) the
entry's key in the embedded content mapping are the same string, even
though the three code sites compute it by separate replacement chains. -/
theorem c1_identifier_agreement (cat : Category) (e : GuideEntry)
    (hmem : (cat, e) ∈ allGuides GUIDES) :
    navGuideId cat e.file = sectionGuideId cat e.file ∧
    sectionGuideId cat e.file = mdGuideId cat e.file ∧
    ∀ fs c, fs e.file = .found c → c ≠ [] →
      ∀ pairs warns,
        generate_markdown_entries fs (allGuides GUIDES) = .ok (pairs, warns) →
        (navGuideId cat e.file, escape_for_js (some c)) ∈ pairs := by
  have hids : ∀ ce ∈ allGuides GUIDES,
      navGuideId ce.1 ce.2.file = sectionGuideId ce.1 ce.2.file ∧
      sectionGuideId ce.1 ce.2.file = mdGuideId ce.1 ce.2.file := by decide
  obtain ⟨h1, h2⟩ := hids (cat, e) hmem
  refine ⟨h1, h2, ?_⟩
  intro fs c hfs hc pairs warns hok
  have hp := (generate_markdown_entries_ok_char fs (allGuides GUIDES)
    pairs warns hok).1
  subst hp
  refine List.mem_filterMap.mpr ⟨(cat, e), hmem, ?_⟩
  simp [entryPair, hfs, hc, ← h1, ← h2]

/-- C2 counterexample: for the registered feature-test path
`FEATURE_TESTS/01_TAB_ARCHITECTURE.md`, the identifier obtained by the
spec's rules — strip the leading category directory prefix, strip the
trailing Markdown extension, replace path separators, lowercase — is
`01_tab_architecture`, while the builder derives
`feature-01_tab_architecture` in every code site: the code replaces the
prefix with the tag `feature-` instead of stripping it. -/
theorem c2_strip_rule_cex :
    (⟨"FEATURE_TESTS/01_TAB_ARCHITECTURE.md", "01. Tab Architecture", "🪟"⟩ : GuideEntry)
        ∈ GUIDES.feature_tests ∧
    specNormalize .feature "FEATURE_TESTS/01_TAB_ARCHITECTURE.md" =
      "01_tab_architecture".data ∧
    navGuideId .feature "FEATURE_TESTS/01_TAB_ARCHITECTURE.md" =
      "feature-01_tab_architecture".data ∧
    specNormalize .feature "FEATURE_TESTS/01_TAB_ARCHITECTURE.md" ≠
      navGuideId .feature "FEATURE_TESTS/01_TAB_ARCHITECTURE.md" ∧
    specNormalize .feature "FEATURE_TESTS/01_TAB_ARCHITECTURE.md" ≠
      mdGuideId .feature "FEATURE_TESTS/01_TAB_ARCHITECTURE.md" := by
  decide

/-- C2 amended: for every registered relative path, the derived guide
identifier equals the result of applying, in order: (a) replace a leading
category-specific directory prefix, if present, by the category tag —
`FEATURE_TESTS/` becomes `feature-`, a leading `../` of a workflow path is
stripped, core paths have no prefix; (b) strip the trailing Markdown
extension; (c) replace every path-separator character with `-`;
(d) lowercase all characters. -/
theorem c2_amended_normalization (cat : Category) (e : GuideEntry)
    (hmem : (cat, e) ∈ allGuides GUIDES) :
    amendedNormalize cat e.file = navGuideId cat e.file ∧
    amendedNormalize cat e.file = mdGuideId cat e.file := by
  have h : ∀ ce ∈ allGuides GUIDES,
      amendedNormalize ce.1 ce.2.file = navGuideId ce.1 ce.2.file ∧
      amendedNormalize ce.1 ce.2.file = mdGuideId ce.1 ce.2.file := by decide
  exact h (cat, e) hmem

/-- C3: if two registry entries normalize to the same identifier (and the
later one reads successfully with non-empty content), the evaluated
embedded content mapping contains exactly one entry under that identifier,
and its value is the escaped text of whichever entry is processed last in
registry order. -/
theorem c3_last_write_wins (guides : Guides) (fs : String → ReadResult)
    (pre post : List (Category × GuideEntry)) (cat : Category) (e : GuideEntry)
    (c gid : List Char)
    (hsplit : allGuides guides = pre ++ (cat, e) :: post)
    (hgid : mdGuideId cat e.file = gid)
    (hdup : ∃ ce ∈ pre, mdGuideId ce.1 ce.2.file = gid)
    (hlast : ∀ ce ∈ post, mdGuideId ce.1 ce.2.file ≠ gid)
    (hread : fs e.file = .found c) (hc : c ≠ [])
    (hio : ∀ ce ∈ allGuides guides, fs ce.2.file ≠ .ioError) :
    ∃ pairs warns,
      generate_markdown_entries fs (allGuides guides) = .ok (pairs, warns) ∧
      assocFind (jsObject pairs) gid = some (escape_for_js (some c)) ∧
      (((jsObject pairs).map Prod.fst).filter (fun k => k = gid)).length = 1 := by
  obtain ⟨pairs, warns, hok⟩ :=
    generate_markdown_entries_isOk fs (allGuides guides) hio
  have hpairs := (generate_markdown_entries_ok_char fs (allGuides guides)
    pairs warns hok).1
  rw [hsplit] at hpairs
  have hhd : entryPair fs (cat, e) = some (gid, escape_for_js (some c)) := by
    simp [entryPair, hread, hc, hgid]
  rw [List.filterMap_append, List.filterMap_cons, hhd] at hpairs
  refine ⟨pairs, warns, hok, ?_, ?_⟩
  · rw [assocFind_jsObject, hpairs, jsLookup_append]
    have hpost : jsLookup (post.filterMap (entryPair fs)) gid = none := by
      apply jsLookup_eq_none
      intro p hp
      obtain ⟨ce, hce, hpe⟩ := List.mem_filterMap.mp hp
      obtain ⟨hkey, -⟩ := entryPair_eq_some fs ce p hpe
      rw [hkey]
      exact hlast ce hce
    rw [jsLookup_cons, hpost]
    simp
  · have hmemk : gid ∈ pairs.map Prod.fst := by
      rw [hpairs]
      refine List.mem_map.mpr ⟨(gid, escape_for_js (some c)), ?_, rfl⟩
      exact List.mem_append.mpr (Or.inr (List.mem_cons_self _ _))
    have hcount := List.count_eq_one_of_mem (nodup_keys_jsObject pairs)
      ((mem_keys_jsObject pairs gid).mpr hmemk)
    have hfun : (fun (x : List Char) => @BEq.beq _ instBEqOfDecidableEq x gid) =
        (fun k => decide (k = gid)) := rfl
    rw [@List.count_eq_countP _ instBEqOfDecidableEq, hfun,
      List.countP_eq_length_filter] at hcount
    exact hcount

/-- C4: for a registry entry whose file is missing from disk, the builder
prints the file-not-found warning, omits that entry's identifier from the
content mapping (all other identifiers looking up unchanged relative to a
run in which the file is present), still emits the entry's navigation link
and empty section in the HTML, and the run completes without raising. -/
theorem c4_missing_file (guides : Guides) (fs : String → ReadResult)
    (cat : Category) (e : GuideEntry) (t : String)
    (hmem : (cat, e) ∈ allGuides guides)
    (hmiss : fs e.file = .notFound)
    (hio : ∀ ce ∈ allGuides guides, fs ce.2.file ≠ .ioError) :
    ∃ pairs warns,
      generate_markdown_entries fs (allGuides guides) = .ok (pairs, warns) ∧
      warnMsg e.file ∈ warns ∧
      ((∀ ce ∈ allGuides guides,
          mdGuideId ce.1 ce.2.file = mdGuideId cat e.file →
          fs ce.2.file = .notFound) →
        mdGuideId cat e.file ∉ pairs.map Prod.fst) ∧
      (∀ c, c ≠ [] →
        (∀ ce ∈ allGuides guides, ce.2.file = e.file →
          mdGuideId ce.1 ce.2.file = mdGuideId cat e.file) →
        ∀ pairs' warns',
          generate_markdown_entries
            (fun p => if p = e.file then .found c else fs p)
            (allGuides guides) = .ok (pairs', warns') →
          ∀ k, k ≠ mdGuideId cat e.file →
            jsLookup pairs' k = jsLookup pairs k) ∧
      (∃ out, generate_html fs guides t = .ok out ∧
        navLine (navGuideId cat e.file) e.icon e.title <:+: out ∧
        sectionLine (sectionGuideId cat e.file) <:+: out) := by
  obtain ⟨pairs, warns, hok⟩ :=
    generate_markdown_entries_isOk fs (allGuides guides) hio
  obtain ⟨hpairs, hwarns⟩ :=
    generate_markdown_entries_ok_char fs (allGuides guides) pairs warns hok
  refine ⟨pairs, warns, hok, ?_, ?_, ?_, ?_⟩
  · rw [hwarns]
    exact List.mem_filterMap.mpr ⟨(cat, e), hmem, by simp [entryWarn, hmiss]⟩
  · intro hall hmemk
    rw [hpairs] at hmemk
    obtain ⟨p, hp, hpk⟩ := List.mem_map.mp hmemk
    obtain ⟨ce, hce, hpe⟩ := List.mem_filterMap.mp hp
    obtain ⟨hkey, c', hc', -, -⟩ := entryPair_eq_some fs ce p hpe
    have hid : mdGuideId ce.1 ce.2.file = mdGuideId cat e.file := by
      rw [← hkey, hpk]
    rw [hall ce hce hid] at hc'
    exact absurd hc' (by simp)
  · intro c hc hshare pairs' warns' hok' k hk
    have hpairs' := (generate_markdown_entries_ok_char _ (allGuides guides)
      pairs' warns' hok').1
    rw [hpairs, hpairs']
    apply jsLookup_filterMap_eq
    intro x hx
    by_cases hfile : x.2.file = e.file
    · refine Or.inr ⟨?_, ?_⟩
      · intro p hp
        obtain ⟨hkey, -⟩ := entryPair_eq_some _ x p hp
        rw [hkey, hshare x hx hfile]
        exact fun hcontr => hk hcontr.symm
      · intro p hp
        obtain ⟨hkey, -⟩ := entryPair_eq_some _ x p hp
        rw [hkey, hshare x hx hfile]
        exact fun hcontr => hk hcontr.symm
    · refine Or.inl ?_
      simp [entryPair, hfile]
  · refine ⟨htmlHead ++ generate_nav_html guides ++ welcomeHtml
      ++ (sectionLines guides).flatten ++ scriptOpen
      ++ renderMarkdownData pairs ++ scriptTail, ?_, ?_, ?_⟩
    · rw [generate_html, hok]
    · exact isInfix_cat_right _ (isInfix_cat_right _ (isInfix_cat_right _
        (isInfix_cat_right _ (isInfix_cat_right _
          (isInfix_cat_left _ (navLine_infix_nav guides cat e hmem))))))
    · have hsec : sectionLine (sectionGuideId cat e.file) <:+:
          (sectionLines guides).flatten := by
        apply List.infix_of_mem_flatten
        exact List.mem_map.mpr ⟨(cat, e), hmem, rfl⟩
      exact isInfix_cat_right _ (isInfix_cat_right _ (isInfix_cat_right _
        (isInfix_cat_left _ hsec)))

/-- C8: the page emitter is deterministic — two runs with file systems that
agree on every registered path, at any two clock readings, produce
byte-identical HTML output; the emitted page embeds no timestamp or other
run-dependent data. -/
theorem c8_deterministic (guides : Guides) (fs fs' : String → ReadResult)
    (t t' : String)
    (h : ∀ ce ∈ allGuides guides, fs ce.2.file = fs' ce.2.file) :
    generate_html fs guides t = generate_html fs' guides t' := by
  unfold generate_html
  rw [generate_markdown_entries_congr fs fs' (allGuides guides) h]

/-- C9: a registry entry whose file exists but reads as the empty string is
omitted from the content mapping exactly as if the file were missing, but
no warning is printed for it; every readable non-empty entry is present,
no read error is tolerated when the run succeeds, and an uncaught read
error aborts the run. -/
theorem c9_empty_content (guides : Guides) (fs : String → ReadResult)
    (cat : Category) (e : GuideEntry)
    (hmem : (cat, e) ∈ allGuides guides)
    (hempty : fs e.file = .found []) :
    Except.map Prod.fst (generate_markdown_entries fs (allGuides guides)) =
      Except.map Prod.fst (generate_markdown_entries
        (fun p => if p = e.file then .notFound else fs p) (allGuides guides)) ∧
    (∀ pairs warns,
      generate_markdown_entries fs (allGuides guides) = .ok (pairs, warns) →
      warnMsg e.file ∉ warns ∧
      ((∀ ce ∈ allGuides guides,
          mdGuideId ce.1 ce.2.file = mdGuideId cat e.file →
          fs ce.2.file = .found [] ∨ fs ce.2.file = .notFound) →
        mdGuideId cat e.file ∉ pairs.map Prod.fst) ∧
      (∀ ce ∈ allGuides guides, fs ce.2.file ≠ .ioError) ∧
      (∀ ce ∈ allGuides guides, ∀ c, fs ce.2.file = .found c → c ≠ [] →
        mdGuideId ce.1 ce.2.file ∈ pairs.map Prod.fst)) ∧
    ((∃ ce ∈ allGuides guides, fs ce.2.file = .ioError) →
      generate_markdown_entries fs (allGuides guides) = .error ()) := by
  refine ⟨?_, ?_, generate_markdown_entries_err fs (allGuides guides)⟩
  · apply generate_markdown_entries_fst_congr
    intro ce hce
    by_cases hfile : ce.2.file = e.file
    · constructor
      · simp [entryPair, hfile, hempty]
      · rw [hfile, hempty]
        simp
    · constructor
      · simp [entryPair, hfile]
      · simp [hfile]
  · intro pairs warns hok
    obtain ⟨hpairs, hwarns⟩ :=
      generate_markdown_entries_ok_char fs (allGuides guides) pairs warns hok
    refine ⟨?_, ?_, ?_, ?_⟩
    · intro hmemw
      rw [hwarns] at hmemw
      obtain ⟨ce, hce, hw⟩ := List.mem_filterMap.mp hmemw
      obtain ⟨hmsg, hnf⟩ := entryWarn_eq_some fs ce _ hw
      have hfe : ce.2.file = e.file := warnMsg_inj _ _ hmsg.symm
      rw [hfe, hempty] at hnf
      exact absurd hnf (by simp)
    · intro hall hmemk
      rw [hpairs] at hmemk
      obtain ⟨p, hp, hpk⟩ := List.mem_map.mp hmemk
      obtain ⟨ce, hce, hpe⟩ := List.mem_filterMap.mp hp
      obtain ⟨hkey, c', hc', hcne, -⟩ := entryPair_eq_some fs ce p hpe
      have hid : mdGuideId ce.1 ce.2.file = mdGuideId cat e.file := by
        rw [← hkey, hpk]
      rcases hall ce hce hid with hfound | hnf
      · rw [hfound] at hc'
        exact hcne (by injection hc' with hh; exact hh.symm) |>.elim
      · rw [hnf] at hc'
        exact absurd hc' (by simp)
    · exact generate_markdown_entries_ok_no_ioError fs (allGuides guides)
        pairs warns hok
    · intro ce hce c hfs hc
      rw [hpairs]
      refine List.mem_map.mpr
        ⟨(mdGuideId ce.1 ce.2.file, escape_for_js (some c)), ?_, rfl⟩
      exact List.mem_filterMap.mpr ⟨ce, hce, by simp [entryPair, hfs, hc]⟩

/-- C6 counterexample: with `dist/` missing and a same-named staging
directory pre-existing, the packaging run deletes that directory and
creates a fresh staging directory before the missing-`dist/` failure is
reported — the trace is exactly `rmtree`, `mkdir`, then the error print —
so the claim that it aborts before any staging directory is created or
modified is false; the freshly created empty staging directory is left
behind. -/
theorem c6_staging_before_check_cex :
    (create_tester_package
      { distFiles := none, guideHtml := false, launcherSh := false,
        launcherBat := false, docPresent := fun _ => false,
        preexistingPkgDir := true, oldZip := none,
        todayYmd := "20251012", todayPretty := "October 12, 2025",
        todayIso := "2025-10-12" }).events =
      [PkgEvent.rmtreePackageDir, PkgEvent.mkdirPackageDir,
        PkgEvent.printErrorDistMissing] ∧
    (create_tester_package
      { distFiles := none, guideHtml := false, launcherSh := false,
        launcherBat := false, docPresent := fun _ => false,
        preexistingPkgDir := true, oldZip := none,
        todayYmd := "20251012", todayPretty := "October 12, 2025",
        todayIso := "2025-10-12" }).result = none ∧
    (create_tester_package
      { distFiles := none, guideHtml := false, launcherSh := false,
        launcherBat := false, docPresent := fun _ => false,
        preexistingPkgDir := true, oldZip := none,
        todayYmd := "20251012", todayPretty := "October 12, 2025",
        todayIso := "2025-10-12" }).stagingAfter = some [] := by
  exact ⟨rfl, rfl, rfl⟩

/-- C6 amended: if the pre-built extension directory is missing, the
packaging operation reports the error with its remediation hint and
returns `None` without writing any zip archive (a pre-existing archive is
left untouched); however, the staging directory is created — and any
same-named pre-existing directory deleted — before the check, and the
empty staging directory is left behind. -/
theorem c6_amended_missing_dist (w : PkgWorld) (hdist : w.distFiles = none) :
    (create_tester_package w).result = none ∧
    PkgEvent.printErrorDistMissing ∈ (create_tester_package w).events ∧
    (∀ es, PkgEvent.writeZip es ∉ (create_tester_package w).events) ∧
    (create_tester_package w).zipAfter = w.oldZip ∧
    (create_tester_package w).stagingAfter = some [] ∧
    PkgEvent.mkdirPackageDir ∈ (create_tester_package w).events := by
  obtain ⟨df, g, sh, bat, dp, pre, oz, d1, d2, d3⟩ := w
  simp only at hdist
  subst hdist
  cases pre <;> simp [create_tester_package]

/-- C7: on a successful run the archive's entries are exactly the staging
tree's contents — the extension files under `extension/`, the guide HTML
when present, each present launcher, each present documentation file, the
generated README and the ignore file, all under the package folder name —
with nothing added or removed during compression, and the staging
directory does not exist afterwards. -/
theorem c7_archive_exact (w : PkgWorld) (files : List String)
    (hdist : w.distFiles = some files) :
    (create_tester_package w).result =
      some (packageName w.todayYmd ++ ".zip") ∧
    (create_tester_package w).zipAfter = some (zipEntries w) ∧
    zipEntries w = (stagingFiles w).map
      (fun p => packageName w.todayYmd ++ "/" ++ p) ∧
    stagingFiles w =
      files.map (fun p => "extension/" ++ p)
        ++ (if w.guideHtml then ["testing-guide.html"] else [])
        ++ (if w.launcherSh then ["open-guide.sh"] else [])
        ++ (if w.launcherBat then ["open-guide.bat"] else [])
        ++ (docsList.filter (fun d => w.docPresent d.1)).map (fun d => d.2)
        ++ ["TESTER_README.md", ".gitignore"] ∧
    (zipEntries w).length = files.length
      + (if w.guideHtml then 1 else 0)
      + (if w.launcherSh then 1 else 0)
      + (if w.launcherBat then 1 else 0)
      + (docsList.filter (fun d => w.docPresent d.1)).length
      + 2 ∧
    (create_tester_package w).stagingAfter = none := by
  obtain ⟨df, g, sh, bat, dp, pre, oz, d1, d2, d3⟩ := w
  simp only at hdist
  subst hdist
  refine ⟨by simp [create_tester_package], by simp [create_tester_package],
    rfl, by simp [stagingFiles], ?_, by simp [create_tester_package]⟩
  rw [zipEntries, List.length_map]
  rw [stagingFiles]
  simp only [Option.getD_some]
  cases g <;> cases sh <;> cases bat <;>
    simp [List.length_append] <;> omega

/-- C10: before staging, the packaging script deletes any pre-existing
directory named like the current package, and before compression it
deletes any pre-existing zip archive of the same name, immediately
followed by writing the new archive; a rerun on the same day therefore
replaces the previous staging directory and archive and completes
successfully. -/
theorem c10_preclean_replaces (w : PkgWorld) (files z : List String)
    (hpre : w.preexistingPkgDir = true)
    (hzip : w.oldZip = some z)
    (hdist : w.distFiles = some files) :
    (∃ mid, (create_tester_package w).events =
      PkgEvent.rmtreePackageDir :: PkgEvent.mkdirPackageDir :: mid
        ++ [PkgEvent.removeOldZip, PkgEvent.writeZip (zipEntries w),
            PkgEvent.rmtreeStagingDir]) ∧
    (create_tester_package w).result =
      some (packageName w.todayYmd ++ ".zip") ∧
    (create_tester_package w).zipAfter = some (zipEntries w) ∧
    (create_tester_package w).stagingAfter = none := by
  obtain ⟨df, g, sh, bat, dp, pre, oz, d1, d2, d3⟩ := w
  simp only at hpre hzip hdist
  subst hpre hzip hdist
  refine ⟨⟨stagingEvents
    { distFiles := some files, guideHtml := g, launcherSh := sh,
      launcherBat := bat, docPresent := dp, preexistingPkgDir := true,
      oldZip := some z, todayYmd := d1, todayPretty := d2,
      todayIso := d3 } files, ?_⟩, rfl, rfl, rfl⟩
  simp [create_tester_package]

/-- Witness for C1 at the registered core entry `README.md`. -/
theorem c1_identifier_agreement_witness :
    ((Category.core, (⟨"README.md", "Overview", "📋"⟩ : GuideEntry))
        ∈ allGuides GUIDES) ∧
    (navGuideId Category.core "README.md" =
        sectionGuideId Category.core "README.md" ∧
      sectionGuideId Category.core "README.md" =
        mdGuideId Category.core "README.md" ∧
      ∀ fs c, fs "README.md" = ReadResult.found c → c ≠ [] →
        ∀ pairs warns,
          generate_markdown_entries fs (allGuides GUIDES) = .ok (pairs, warns) →
          (navGuideId Category.core "README.md", escape_for_js (some c)) ∈ pairs) :=
  ⟨by decide,
    c1_identifier_agreement Category.core ⟨"README.md", "Overview", "📋"⟩ (by decide)⟩

/-- Witness for the amended C2 at the registered feature-test entry. -/
theorem c2_amended_normalization_witness :
    ((Category.feature,
        (⟨"FEATURE_TESTS/01_TAB_ARCHITECTURE.md", "01. Tab Architecture", "🪟"⟩ : GuideEntry))
        ∈ allGuides GUIDES) ∧
    (amendedNormalize Category.feature "FEATURE_TESTS/01_TAB_ARCHITECTURE.md" =
        navGuideId Category.feature "FEATURE_TESTS/01_TAB_ARCHITECTURE.md" ∧
      amendedNormalize Category.feature "FEATURE_TESTS/01_TAB_ARCHITECTURE.md" =
        mdGuideId Category.feature "FEATURE_TESTS/01_TAB_ARCHITECTURE.md") :=
  ⟨by decide,
    c2_amended_normalization Category.feature
      ⟨"FEATURE_TESTS/01_TAB_ARCHITECTURE.md", "01. Tab Architecture", "🪟"⟩ (by decide)⟩

/-- Witness for C3 on a two-entry registry whose paths `A.md` and `a.md`
collide on the identifier `a`: the mapping holds the second (last) entry's
escaped content, exactly once. -/
theorem c3_last_write_wins_witness :
    (allGuides ⟨[⟨"A.md", "t", "i"⟩, ⟨"a.md", "u", "j"⟩], [], []⟩ =
      [(Category.core, ⟨"A.md", "t", "i"⟩)]
        ++ (Category.core, (⟨"a.md", "u", "j"⟩ : GuideEntry)) :: []) ∧
    (mdGuideId Category.core "a.md" = ['a']) ∧
    (∃ ce ∈ [(Category.core, (⟨"A.md", "t", "i"⟩ : GuideEntry))],
      mdGuideId ce.1 ce.2.file = ['a']) ∧
    (∀ ce ∈ ([] : List (Category × GuideEntry)),
      mdGuideId ce.1 ce.2.file ≠ ['a']) ∧
    ((fun p => if p = "a.md" then ReadResult.found ['x']
        else if p = "A.md" then ReadResult.found ['y']
        else ReadResult.notFound) "a.md" = ReadResult.found ['x']) ∧
    (['x'] ≠ ([] : List Char)) ∧
    (∀ ce ∈ allGuides ⟨[⟨"A.md", "t", "i"⟩, ⟨"a.md", "u", "j"⟩], [], []⟩,
      (fun p => if p = "a.md" then ReadResult.found ['x']
        else if p = "A.md" then ReadResult.found ['y']
        else ReadResult.notFound) ce.2.file ≠ ReadResult.ioError) ∧
    (∃ pairs warns,
      generate_markdown_entries
        (fun p => if p = "a.md" then ReadResult.found ['x']
          else if p = "A.md" then ReadResult.found ['y']
          else ReadResult.notFound)
        (allGuides ⟨[⟨"A.md", "t", "i"⟩, ⟨"a.md", "u", "j"⟩], [], []⟩) =
          .ok (pairs, warns) ∧
      assocFind (jsObject pairs) ['a'] = some (escape_for_js (some ['x'])) ∧
      (((jsObject pairs).map Prod.fst).filter (fun k => k = ['a'])).length = 1) :=
  ⟨by decide, by decide, by decide, by decide, by decide, by decide, by decide,
    c3_last_write_wins ⟨[⟨"A.md", "t", "i"⟩, ⟨"a.md", "u", "j"⟩], [], []⟩
      (fun p => if p = "a.md" then ReadResult.found ['x']
        else if p = "A.md" then ReadResult.found ['y']
        else ReadResult.notFound)
      [(Category.core, ⟨"A.md", "t", "i"⟩)] []
      Category.core ⟨"a.md", "u", "j"⟩ ['x'] ['a']
      (by decide) (by decide) (by decide) (by decide) (by decide) (by decide)
      (by decide)⟩

/-- Witness for C4: the registry run against a file system with every file
missing still warns, omits, navigates and completes. -/
theorem c4_missing_file_witness :
    ((Category.core, (⟨"README.md", "Overview", "📋"⟩ : GuideEntry))
        ∈ allGuides GUIDES) ∧
    ((fun _ => ReadResult.notFound) "README.md" = ReadResult.notFound) ∧
    (∀ ce ∈ allGuides GUIDES,
      (fun _ => ReadResult.notFound) ce.2.file ≠ ReadResult.ioError) ∧
    (∃ pairs warns,
      generate_markdown_entries (fun _ => ReadResult.notFound)
        (allGuides GUIDES) = .ok (pairs, warns) ∧
      warnMsg "README.md" ∈ warns ∧
      ((∀ ce ∈ allGuides GUIDES,
          mdGuideId ce.1 ce.2.file = mdGuideId Category.core "README.md" →
          (fun _ => ReadResult.notFound) ce.2.file = ReadResult.notFound) →
        mdGuideId Category.core "README.md" ∉ pairs.map Prod.fst) ∧
      (∀ c, c ≠ [] →
        (∀ ce ∈ allGuides GUIDES, ce.2.file = "README.md" →
          mdGuideId ce.1 ce.2.file = mdGuideId Category.core "README.md") →
        ∀ pairs' warns',
          generate_markdown_entries
            (fun p => if p = "README.md" then ReadResult.found c
              else (fun _ => ReadResult.notFound) p)
            (allGuides GUIDES) = .ok (pairs', warns') →
          ∀ k, k ≠ mdGuideId Category.core "README.md" →
            jsLookup pairs' k = jsLookup pairs k) ∧
      (∃ out, generate_html (fun _ => ReadResult.notFound) GUIDES "20250101" =
          .ok out ∧
        navLine (navGuideId Category.core "README.md") "📋" "Overview" <:+: out ∧
        sectionLine (sectionGuideId Category.core "README.md") <:+: out)) :=
  ⟨by decide, rfl, by decide,
    c4_missing_file GUIDES (fun _ => ReadResult.notFound) Category.core
      ⟨"README.md", "Overview", "📋"⟩ "20250101" (by decide) rfl (by decide)⟩

/-- Witness for C8: two runs over the same all-missing file system at two
different clock readings. -/
theorem c8_deterministic_witness :
    (∀ ce ∈ allGuides GUIDES,
      (fun _ => ReadResult.notFound) ce.2.file =
        (fun _ => ReadResult.notFound) ce.2.file) ∧
    generate_html (fun _ => ReadResult.notFound) GUIDES "20250101" =
      generate_html (fun _ => ReadResult.notFound) GUIDES "20991231" :=
  ⟨by decide,
    c8_deterministic GUIDES (fun _ => ReadResult.notFound)
      (fun _ => ReadResult.notFound) "20250101" "20991231" (by decide)⟩

/-- Witness for C9: `README.md` present but empty, all other files missing. -/
theorem c9_empty_content_witness :
    ((Category.core, (⟨"README.md", "Overview", "📋"⟩ : GuideEntry))
        ∈ allGuides GUIDES) ∧
    ((fun p => if p = "README.md" then ReadResult.found []
        else ReadResult.notFound) "README.md" = ReadResult.found []) ∧
    (Except.map Prod.fst (generate_markdown_entries
        (fun p => if p = "README.md" then ReadResult.found []
          else ReadResult.notFound) (allGuides GUIDES)) =
      Except.map Prod.fst (generate_markdown_entries
        (fun p => if p = "README.md" then ReadResult.notFound
          else (fun q => if q = "README.md" then ReadResult.found []
            else ReadResult.notFound) p) (allGuides GUIDES)) ∧
    (∀ pairs warns,
      generate_markdown_entries
        (fun p => if p = "README.md" then ReadResult.found []
          else ReadResult.notFound) (allGuides GUIDES) = .ok (pairs, warns) →
      warnMsg "README.md" ∉ warns ∧
      ((∀ ce ∈ allGuides GUIDES,
          mdGuideId ce.1 ce.2.file = mdGuideId Category.core "README.md" →
          (fun p => if p = "README.md" then ReadResult.found []
            else ReadResult.notFound) ce.2.file = ReadResult.found [] ∨
          (fun p => if p = "README.md" then ReadResult.found []
            else ReadResult.notFound) ce.2.file = ReadResult.notFound) →
        mdGuideId Category.core "README.md" ∉ pairs.map Prod.fst) ∧
      (∀ ce ∈ allGuides GUIDES,
        (fun p => if p = "README.md" then ReadResult.found []
          else ReadResult.notFound) ce.2.file ≠ ReadResult.ioError) ∧
      (∀ ce ∈ allGuides GUIDES, ∀ c,
        (fun p => if p = "README.md" then ReadResult.found []
          else ReadResult.notFound) ce.2.file = ReadResult.found c → c ≠ [] →
        mdGuideId ce.1 ce.2.file ∈ pairs.map Prod.fst)) ∧
    ((∃ ce ∈ allGuides GUIDES,
        (fun p => if p = "README.md" then ReadResult.found []
          else ReadResult.notFound) ce.2.file = ReadResult.ioError) →
      generate_markdown_entries
        (fun p => if p = "README.md" then ReadResult.found []
          else ReadResult.notFound) (allGuides GUIDES) = .error ())) :=
  ⟨by decide, by decide,
    c9_empty_content GUIDES
      (fun p => if p = "README.md" then ReadResult.found []
        else ReadResult.notFound)
      Category.core ⟨"README.md", "Overview", "📋"⟩ (by decide) (by decide)⟩

/-- Witness for the amended C6 at a concrete world with `dist/` absent and
a pre-existing archive. -/
theorem c6_amended_missing_dist_witness :
    (({ distFiles := none, guideHtml := true, launcherSh := true,
        launcherBat := true, docPresent := fun _ => true,
        preexistingPkgDir := false, oldZip := some ["stale.txt"],
        todayYmd := "20251012", todayPretty := "October 12, 2025",
        todayIso := "2025-10-12" } : PkgWorld).distFiles = none) ∧
    ((create_tester_package
      { distFiles := none, guideHtml := true, launcherSh := true,
        launcherBat := true, docPresent := fun _ => true,
        preexistingPkgDir := false, oldZip := some ["stale.txt"],
        todayYmd := "20251012", todayPretty := "October 12, 2025",
        todayIso := "2025-10-12" }).result = none ∧
    PkgEvent.printErrorDistMissing ∈ (create_tester_package
      { distFiles := none, guideHtml := true, launcherSh := true,
        launcherBat := true, docPresent := fun _ => true,
        preexistingPkgDir := false, oldZip := some ["stale.txt"],
        todayYmd := "20251012", todayPretty := "October 12, 2025",
        todayIso := "2025-10-12" }).events ∧
    (∀ es, PkgEvent.writeZip es ∉ (create_tester_package
      { distFiles := none, guideHtml := true, launcherSh := true,
        launcherBat := true, docPresent := fun _ => true,
        preexistingPkgDir := false, oldZip := some ["stale.txt"],
        todayYmd := "20251012", todayPretty := "October 12, 2025",
        todayIso := "2025-10-12" }).events) ∧
    (create_tester_package
      { distFiles := none, guideHtml := true, launcherSh := true,
        launcherBat := true, docPresent := fun _ => true,
        preexistingPkgDir := false, oldZip := some ["stale.txt"],
        todayYmd := "20251012", todayPretty := "October 12, 2025",
        todayIso := "2025-10-12" }).zipAfter =
      ({ distFiles := none, guideHtml := true, launcherSh := true,
         launcherBat := true, docPresent := fun _ => true,
         preexistingPkgDir := false, oldZip := some ["stale.txt"],
         todayYmd := "20251012", todayPretty := "October 12, 2025",
         todayIso := "2025-10-12" } : PkgWorld).oldZip ∧
    (create_tester_package
      { distFiles := none, guideHtml := true, launcherSh := true,
        launcherBat := true, docPresent := fun _ => true,
        preexistingPkgDir := false, oldZip := some ["stale.txt"],
        todayYmd := "20251012", todayPretty := "October 12, 2025",
        todayIso := "2025-10-12" }).stagingAfter = some [] ∧
    PkgEvent.mkdirPackageDir ∈ (create_tester_package
      { distFiles := none, guideHtml := true, launcherSh := true,
        launcherBat := true, docPresent := fun _ => true,
        preexistingPkgDir := false, oldZip := some ["stale.txt"],
        todayYmd := "20251012", todayPretty := "October 12, 2025",
        todayIso := "2025-10-12" }).events) :=
  ⟨rfl, c6_amended_missing_dist _ rfl⟩

/-- Witness for C7: two extension files, guide and both launchers present,
one documentation file present. -/
theorem c7_archive_exact_witness :
    (({ distFiles := some ["manifest.json", "background.js"],
        guideHtml := true, launcherSh := true, launcherBat := true,
        docPresent := fun p => p = "README.md",
        preexistingPkgDir := false, oldZip := none,
        todayYmd := "20251012", todayPretty := "October 12, 2025",
        todayIso := "2025-10-12" } : PkgWorld).distFiles =
      some ["manifest.json", "background.js"]) ∧
    ((create_tester_package
      { distFiles := some ["manifest.json", "background.js"],
        guideHtml := true, launcherSh := true, launcherBat := true,
        docPresent := fun p => p = "README.md",
        preexistingPkgDir := false, oldZip := none,
        todayYmd := "20251012", todayPretty := "October 12, 2025",
        todayIso := "2025-10-12" }).result =
      some (packageName "20251012" ++ ".zip") ∧
    (create_tester_package
      { distFiles := some ["manifest.json", "background.js"],
        guideHtml := true, launcherSh := true, launcherBat := true,
        docPresent := fun p => p = "README.md",
        preexistingPkgDir := false, oldZip := none,
        todayYmd := "20251012", todayPretty := "October 12, 2025",
        todayIso := "2025-10-12" }).zipAfter =
      some (zipEntries
        { distFiles := some ["manifest.json", "background.js"],
          guideHtml := true, launcherSh := true, launcherBat := true,
          docPresent := fun p => p = "README.md",
          preexistingPkgDir := false, oldZip := none,
          todayYmd := "20251012", todayPretty := "October 12, 2025",
          todayIso := "2025-10-12" }) ∧
    zipEntries
      { distFiles := some ["manifest.json", "background.js"],
        guideHtml := true, launcherSh := true, launcherBat := true,
        docPresent := fun p => p = "README.md",
        preexistingPkgDir := false, oldZip := none,
        todayYmd := "20251012", todayPretty := "October 12, 2025",
        todayIso := "2025-10-12" } =
      (stagingFiles
        { distFiles := some ["manifest.json", "background.js"],
          guideHtml := true, launcherSh := true, launcherBat := true,
          docPresent := fun p => p = "README.md",
          preexistingPkgDir := false, oldZip := none,
          todayYmd := "20251012", todayPretty := "October 12, 2025",
          todayIso := "2025-10-12" }).map
        (fun p => packageName "20251012" ++ "/" ++ p) ∧
    stagingFiles
      { distFiles := some ["manifest.json", "background.js"],
        guideHtml := true, launcherSh := true, launcherBat := true,
        docPresent := fun p => p = "README.md",
        preexistingPkgDir := false, oldZip := none,
        todayYmd := "20251012", todayPretty := "October 12, 2025",
        todayIso := "2025-10-12" } =
      ["manifest.json", "background.js"].map (fun p => "extension/" ++ p)
        ++ (if true then ["testing-guide.html"] else [])
        ++ (if true then ["open-guide.sh"] else [])
        ++ (if true then ["open-guide.bat"] else [])
        ++ (docsList.filter (fun d => d.1 = "README.md")).map (fun d => d.2)
        ++ ["TESTER_README.md", ".gitignore"] ∧
    (zipEntries
      { distFiles := some ["manifest.json", "background.js"],
        guideHtml := true, launcherSh := true, launcherBat := true,
        docPresent := fun p => p = "README.md",
        preexistingPkgDir := false, oldZip := none,
        todayYmd := "20251012", todayPretty := "October 12, 2025",
        todayIso := "2025-10-12" }).length =
      (["manifest.json", "background.js"] : List String).length
        + (if true then 1 else 0) + (if true then 1 else 0)
        + (if true then 1 else 0)
        + (docsList.filter (fun d => d.1 = "README.md")).length + 2 ∧
    (create_tester_package
      { distFiles := some ["manifest.json", "background.js"],
        guideHtml := true, launcherSh := true, launcherBat := true,
        docPresent := fun p => p = "README.md",
        preexistingPkgDir := false, oldZip := none,
        todayYmd := "20251012", todayPretty := "October 12, 2025",
        todayIso := "2025-10-12" }).stagingAfter = none) :=
  ⟨rfl, c7_archive_exact _ ["manifest.json", "background.js"] rfl⟩

/-- Witness for C10: a rerun world with a pre-existing staging directory
and archive of today's name. -/
theorem c10_preclean_replaces_witness :
    (({ distFiles := some ["manifest.json"], guideHtml := true,
        launcherSh := true, launcherBat := true,
        docPresent := fun _ => false, preexistingPkgDir := true,
        oldZip := some ["old-entry"], todayYmd := "20251012",
        todayPretty := "October 12, 2025",
        todayIso := "2025-10-12" } : PkgWorld).preexistingPkgDir = true) ∧
    (({ distFiles := some ["manifest.json"], guideHtml := true,
        launcherSh := true, launcherBat := true,
        docPresent := fun _ => false, preexistingPkgDir := true,
        oldZip := some ["old-entry"], todayYmd := "20251012",
        todayPretty := "October 12, 2025",
        todayIso := "2025-10-12" } : PkgWorld).oldZip = some ["old-entry"]) ∧
    (({ distFiles := some ["manifest.json"], guideHtml := true,
        launcherSh := true, launcherBat := true,
        docPresent := fun _ => false, preexistingPkgDir := true,
        oldZip := some ["old-entry"], todayYmd := "20251012",
        todayPretty := "October 12, 2025",
        todayIso := "2025-10-12" } : PkgWorld).distFiles = some ["manifest.json"]) ∧
    ((∃ mid, (create_tester_package
      { distFiles := some ["manifest.json"], guideHtml := true,
        launcherSh := true, launcherBat := true,
        docPresent := fun _ => false, preexistingPkgDir := true,
        oldZip := some ["old-entry"], todayYmd := "20251012",
        todayPretty := "October 12, 2025",
        todayIso := "2025-10-12" }).events =
      PkgEvent.rmtreePackageDir :: PkgEvent.mkdirPackageDir :: mid
        ++ [PkgEvent.removeOldZip,
            PkgEvent.writeZip (zipEntries
              { distFiles := some ["manifest.json"], guideHtml := true,
                launcherSh := true, launcherBat := true,
                docPresent := fun _ => false, preexistingPkgDir := true,
                oldZip := some ["old-entry"], todayYmd := "20251012",
                todayPretty := "October 12, 2025",
                todayIso := "2025-10-12" }),
            PkgEvent.rmtreeStagingDir]) ∧
    (create_tester_package
      { distFiles := some ["manifest.json"], guideHtml := true,
        launcherSh := true, launcherBat := true,
        docPresent := fun _ => false, preexistingPkgDir := true,
        oldZip := some ["old-entry"], todayYmd := "20251012",
        todayPretty := "October 12, 2025",
        todayIso := "2025-10-12" }).result =
      some (packageName "20251012" ++ ".zip") ∧
    (create_tester_package
      { distFiles := some ["manifest.json"], guideHtml := true,
        launcherSh := true, launcherBat := true,
        docPresent := fun _ => false, preexistingPkgDir := true,
        oldZip := some ["old-entry"], todayYmd := "20251012",
        todayPretty := "October 12, 2025",
        todayIso := "2025-10-12" }).zipAfter =
      some (zipEntries
        { distFiles := some ["manifest.json"], guideHtml := true,
          launcherSh := true, launcherBat := true,
          docPresent := fun _ => false, preexistingPkgDir := true,
          oldZip := some ["old-entry"], todayYmd := "20251012",
          todayPretty := "October 12, 2025",
          todayIso := "2025-10-12" }) ∧
    (create_tester_package
      { distFiles := some ["manifest.json"], guideHtml := true,
        launcherSh := true, launcherBat := true,
        docPresent := fun _ => false, preexistingPkgDir := true,
        oldZip := some ["old-entry"], todayYmd := "20251012",
        todayPretty := "October 12, 2025",
        todayIso := "2025-10-12" }).stagingAfter = none) :=
  ⟨rfl, rfl, rfl, c10_preclean_replaces _ ["manifest.json"] ["old-entry"] rfl rfl rfl⟩
